import Mathlib

/-!
Verification of the forthc compiler core (forthc.go) against its
specification. The AST, the code generator (Codegen.Generate,
Codegen.GenerateFromProgram, NewGenerator) and the target machine for the
emitted RISC-V-style instruction subset are shallowly embedded below; the
generator emits a list of instructions, one list element per emitted
assembly line. Labels, produced in the source by fresh UUIDs whose only
used property is uniqueness, are modelled by a fresh counter threaded
through the generator state.
-/

namespace Forthc

/-- Registers appearing in the emitted assembly text: the stack pointer,
the heap base register s0, the hardwired zero register, and the seven
temporaries t0 to t6. -/
inductive Reg where
  | sp | s0 | zero | t0 | t1 | t2 | t3 | t4 | t5 | t6
  deriving DecidableEq, Repr

/-- Branch-target labels. The source preamble uses the two fixed labels
.init and .main; every other label is freshly generated (a UUID in the
source, a counter value here). A conditional derives two targets from one
identifier by an else suffix, mirrored by the genElse constructor. -/
inductive Lbl where
  | initL | mainL | gen (n : Nat) | genElse (n : Nat)
  deriving DecidableEq, Repr

/-- One emitted assembly line. Each constructor corresponds to one
fmt.Fprintf instruction format in forthc.go. Loads and stores carry their
immediate offset (always 0 in the source) and base register. -/
inductive Instr where
  | li (rd : Reg) (imm : Int)
  | lw (rd : Reg) (off : Int) (rs : Reg)
  | sw (rs : Reg) (off : Int) (rd : Reg)
  | addi (rd : Reg) (rs : Reg) (imm : Int)
  | add (rd : Reg) (r1 : Reg) (r2 : Reg)
  | sub (rd : Reg) (r1 : Reg) (r2 : Reg)
  | mul (rd : Reg) (r1 : Reg) (r2 : Reg)
  | div (rd : Reg) (r1 : Reg) (r2 : Reg)
  | slt (rd : Reg) (r1 : Reg) (r2 : Reg)
  | neg (rd : Reg) (rs : Reg)
  | beq (r1 : Reg) (r2 : Reg) (l : Lbl)
  | bne (r1 : Reg) (r2 : Reg) (l : Lbl)
  | beqz (r : Reg) (l : Lbl)
  | bnez (r : Reg) (l : Lbl)
  | j (l : Lbl)
  | label (l : Lbl)
  deriving DecidableEq, Repr

/-- AST of forthc.go: the Expression / DefinitionExpression node structs.
Body lists are parsed one-or-more; emptiness is constrained by the
grammar predicates below, not by the type. -/
inductive Expr where
  | IntegerNode (value : Int)
  | SymbolNode (value : String)
  | BinOpNode (operation : String)
  | UnOpNode (operation : String)
  | VariableDefNode (identifier : String)
  | ReceiveNode (identifier : String)
  | AssignNode (identifier : String)
  | CmoveNode
  | SymbolDefNode (symbol : String) (body : List Expr)
  | IfThenElseNode (thenBody : List Expr) (elseBody : List Expr)
  | DoLoopNode (body : List Expr)
  | BeginUntilNode (body : List Expr)

/-! Word environment: the Go map[string]string from names to generated
instruction text, modelled as an association list with overwrite-on-insert
and delete-the-key semantics matching map assignment and delete. -/

abbrev Env : Type := List (String × List Instr)

def envLookup (k : String) : Env → Option (List Instr)
  | [] => none
  | (k1, v) :: rest => if k = k1 then some v else envLookup k rest

def envErase (k : String) (e : Env) : Env :=
  e.filter (fun p => p.1 ≠ k)

def envInsert (k : String) (v : List Instr) (e : Env) : Env :=
  (k, v) :: envErase k e

/-- Generator state: the word environment, the heap offset counter, and
the fresh-label counter standing in for UUID generation. -/
structure Codegen where
  Environment : Env
  HeapOffset : Int
  nextLabel : Nat

/-- Stored text of the builtin word dup (NewGenerator). -/
def dupCode : List Instr :=
  [.addi .sp .sp (-4), .lw .t0 0 .sp, .addi .sp .sp 4,
   .sw .t0 0 .sp, .addi .sp .sp 4]

/-- Stored text of the builtin word swap (NewGenerator). -/
def swapCode : List Instr :=
  [.addi .sp .sp (-4), .lw .t0 0 .sp, .addi .sp .sp (-4), .lw .t1 0 .sp,
   .sw .t0 0 .sp, .addi .sp .sp 4, .sw .t1 0 .sp, .addi .sp .sp 4]

/-- Stored text of the builtin word drop (NewGenerator). -/
def dropCode : List Instr :=
  [.addi .sp .sp (-4)]

/-- NewGenerator: fresh generator with dup, swap and drop pre-bound. -/
def NewGenerator : Codegen :=
  { Environment := [("dup", dupCode), ("swap", swapCode), ("drop", dropCode)],
    HeapOffset := 0,
    nextLabel := 0 }

/-- Snippet bound to the loop index name at nesting depth one: push t6
(DoLoopNode case of Generate). -/
def pushIdxI : List Instr := [.sw .t6 0 .sp, .addi .sp .sp 4]

/-- Snippet bound to the loop index name at nesting depth two: push t4. -/
def pushIdxJ : List Instr := [.sw .t4 0 .sp, .addi .sp .sp 4]

/-- Middle section of the code emitted for a binary operator: the
instructions between the two operand pops and the result push, as emitted
by the inner switch of the BinOpNode case. Returns none exactly on the
operation strings rejected by that switch. The label counter value used
for the branch label is passed in. -/
def binOpCode (op : String) (n : Nat) : Option (List Instr) :=
  if op = "+" then some [.add .t0 .t1 .t2]
  else if op = "-" then some [.sub .t0 .t1 .t2]
  else if op = "*" then some [.mul .t0 .t1 .t2]
  else if op = "/" then some [.div .t0 .t1 .t2]
  else if op = "<" then some [.slt .t0 .t1 .t2, .neg .t0 .t0]
  else if op = ">" then some [.slt .t0 .t2 .t1, .neg .t0 .t0]
  else if op = "<=" then some
    [.li .t0 1, .beq .t1 .t2 (.gen n), .slt .t0 .t1 .t2,
     .label (.gen n), .neg .t0 .t0]
  else if op = ">=" then some
    [.li .t0 1, .beq .t1 .t2 (.gen n), .slt .t0 .t2 .t1,
     .label (.gen n), .neg .t0 .t0]
  else if op = "=" then some
    [.li .t0 1, .beq .t1 .t2 (.gen n), .li .t0 0,
     .label (.gen n), .neg .t0 .t0]
  else if op = "<>" then some
    [.li .t0 1, .bne .t1 .t2 (.gen n), .li .t0 0,
     .label (.gen n), .neg .t0 .t0]
  else if op = "and" then some
    [.li .t0 0, .beqz .t1 (.gen n), .beqz .t2 (.gen n), .li .t0 1,
     .label (.gen n), .neg .t0 .t0]
  else if op = "or" then some
    [.li .t0 1, .bnez .t1 (.gen n), .bnez .t2 (.gen n), .li .t0 0,
     .label (.gen n), .neg .t0 .t0]
  else none

/-- Code emitted for the unary operator invert (UnOpNode case); none on
any other operation string. -/
def unOpCode (op : String) (n : Nat) : Option (List Instr) :=
  if op = "invert" then some
    [.li .t0 1, .beqz .t1 (.gen n), .li .t0 0,
     .label (.gen n), .neg .t0 .t0]
  else none

/-- Accessor snippet bound by a variable declaration: compute heap base
plus the current heap offset and push that address (VariableDefNode case
of Generate). -/
def varAccessor (off : Int) : List Instr :=
  [.addi .t0 .s0 off, .sw .t0 0 .sp, .addi .sp .sp 4]

mutual

/-- Codegen.Generate of forthc.go: generate one node, returning the
updated generator state and the instruction list written to the output
writer, or the error message of the first failure. -/
def generate (cd : Codegen) (e : Expr) : Except String (Codegen × List Instr) :=
  match e with
  | .IntegerNode v =>
      .ok (cd, [.li .t0 v, .sw .t0 0 .sp, .addi .sp .sp 4])
  | .BinOpNode op =>
      match binOpCode op cd.nextLabel with
      | none => .error ("unexpected binary operation: " ++ op)
      | some mid =>
          .ok ({ cd with nextLabel := cd.nextLabel + 1 },
               [.addi .sp .sp (-4), .lw .t2 0 .sp,
                .addi .sp .sp (-4), .lw .t1 0 .sp]
               ++ mid ++ [.sw .t0 0 .sp, .addi .sp .sp 4])
  | .UnOpNode op =>
      match unOpCode op cd.nextLabel with
      | none => .error ("unexpected unary operation: " ++ op)
      | some mid =>
          .ok ({ cd with nextLabel := cd.nextLabel + 1 },
               [.addi .sp .sp (-4), .lw .t1 0 .sp]
               ++ mid ++ [.sw .t0 0 .sp, .addi .sp .sp 4])
  | .SymbolNode name =>
      match envLookup name cd.Environment with
      | none => .error ("undefined symbol: " ++ name)
      | some body => .ok (cd, body)
  | .SymbolDefNode sym body =>
      match generateList cd body with
      | .error msg => .error msg
      | .ok (cd1, out) =>
          .ok ({ cd1 with Environment := envInsert sym out cd1.Environment }, [])
  | .IfThenElseNode thenBody elseBody =>
      match generateList cd thenBody with
      | .error msg => .error msg
      | .ok (cd1, thenOut) =>
          match generateList cd1 elseBody with
          | .error msg => .error msg
          | .ok (cd2, elseOut) =>
              .ok ({ cd2 with nextLabel := cd2.nextLabel + 1 },
                   [.addi .sp .sp (-4), .lw .t0 0 .sp,
                    .beq .t0 .zero (.genElse cd2.nextLabel)]
                   ++ thenOut
                   ++ [.j (.gen cd2.nextLabel),
                       .label (.genElse cd2.nextLabel)]
                   ++ elseOut
                   ++ [.label (.gen cd2.nextLabel)])
  | .DoLoopNode body =>
      match envLookup "i" cd.Environment with
      | some _ =>
          match generateList
              { cd with Environment := envInsert "j" pushIdxJ cd.Environment }
              body with
          | .error msg => .error msg
          | .ok (cd1, out) =>
              .ok ({ cd1 with
                       Environment := envErase "j" cd1.Environment,
                       nextLabel := cd1.nextLabel + 1 },
                   [.addi .sp .sp (-4), .lw .t4 0 .sp,
                    .addi .sp .sp (-4), .lw .t3 0 .sp,
                    .label (.gen cd1.nextLabel)]
                   ++ out
                   ++ [.addi .t4 .t4 1, .bne .t3 .t4 (.gen cd1.nextLabel)])
      | none =>
          match generateList
              { cd with Environment := envInsert "i" pushIdxI cd.Environment }
              body with
          | .error msg => .error msg
          | .ok (cd1, out) =>
              .ok ({ cd1 with
                       Environment := envErase "i" cd1.Environment,
                       nextLabel := cd1.nextLabel + 1 },
                   [.addi .sp .sp (-4), .lw .t6 0 .sp,
                    .addi .sp .sp (-4), .lw .t5 0 .sp,
                    .label (.gen cd1.nextLabel)]
                   ++ out
                   ++ [.addi .t6 .t6 1, .bne .t5 .t6 (.gen cd1.nextLabel)])
  | .BeginUntilNode body =>
      match generateList cd body with
      | .error msg => .error msg
      | .ok (cd1, out) =>
          .ok ({ cd1 with nextLabel := cd1.nextLabel + 1 },
               [.label (.gen cd1.nextLabel)]
               ++ out
               ++ [.addi .sp .sp (-4), .lw .t0 0 .sp,
                   .beqz .t0 (.gen cd1.nextLabel)])
  | .VariableDefNode ident =>
      .ok ({ cd with
               Environment :=
                 envInsert ident (varAccessor cd.HeapOffset) cd.Environment,
               HeapOffset := cd.HeapOffset + 4 },
           [])
  | .ReceiveNode ident =>
      match envLookup ident cd.Environment with
      | none => .error ("undefined variable: " ++ ident)
      | some body =>
          .ok (cd, body ++
               [.addi .sp .sp (-4), .lw .t0 0 .sp, .lw .t0 0 .t0,
                .sw .t0 0 .sp, .addi .sp .sp 4])
  | .AssignNode ident =>
      match envLookup ident cd.Environment with
      | none => .error ("undefined variable: " ++ ident)
      | some body =>
          .ok (cd, body ++
               [.addi .sp .sp (-4), .lw .t0 0 .sp,
                .addi .sp .sp (-4), .lw .t1 0 .sp,
                .sw .t1 0 .t0])
  | .CmoveNode =>
      .ok ({ cd with nextLabel := cd.nextLabel + 1 },
           [.addi .sp .sp (-4), .lw .t0 0 .sp,
            .addi .sp .sp (-4), .lw .t1 0 .sp,
            .addi .sp .sp (-4), .lw .t2 0 .sp,
            .label (.gen cd.nextLabel),
            .lw .t3 0 .t2, .sw .t3 0 .t1,
            .addi .t0 .t0 (-1),
            .addi .t1 .t1 4, .addi .t2 .t2 4,
            .bnez .t0 (.gen cd.nextLabel)])

/-- Sequential generation of a node list into one output, threading the
generator state, stopping at the first error (the loop body of
GenerateFromProgram and of every nested-body loop in Generate). -/
def generateList (cd : Codegen) (es : List Expr) : Except String (Codegen × List Instr) :=
  match es with
  | [] => .ok (cd, [])
  | e :: rest =>
      match generate cd e with
      | .error msg => .error msg
      | .ok (cd1, out1) =>
          match generateList cd1 rest with
          | .error msg => .error msg
          | .ok (cd2, out2) => .ok (cd2, out1 ++ out2)

end

/-- Fixed preamble emitted by GeneratePreamble: initialize the stack
pointer and the heap base register, then jump to the main body. -/
def preambleCode : List Instr :=
  [.j .initL, .label .initL,
   .li .sp 0x10010000, .li .s0 0x10040000,
   .j .mainL, .label .mainL]

/-- Codegen.GenerateFromProgram: preamble followed by the code of each
top-level expression in order, halting at the first error. -/
def generateFromProgram (cd : Codegen) (prog : List Expr) : Except String (Codegen × List Instr) :=
  match generateList cd prog with
  | .error msg => .error msg
  | .ok (cd1, out) => .ok (cd1, preambleCode ++ out)

/-!
Target machine. The emitted assembly runs on a 32-bit register machine;
register and memory cells hold 32-bit two-complement values, modelled as
integers normalized into the signed range by wrap32 wherever an
instruction can overflow.
-/

/-- Normalization of an integer into signed 32-bit two-complement range. -/
def wrap32 (x : Int) : Int :=
  (x + 2 ^ 31) % 2 ^ 32 - 2 ^ 31

/-- Register file of the target machine. The zero register is hardwired
and kept out of the structure. -/
structure RegFile where
  sp : Int
  s0 : Int
  t0 : Int
  t1 : Int
  t2 : Int
  t3 : Int
  t4 : Int
  t5 : Int
  t6 : Int

def RegFile.get (rf : RegFile) : Reg → Int
  | .sp => rf.sp
  | .s0 => rf.s0
  | .zero => 0
  | .t0 => rf.t0
  | .t1 => rf.t1
  | .t2 => rf.t2
  | .t3 => rf.t3
  | .t4 => rf.t4
  | .t5 => rf.t5
  | .t6 => rf.t6

def RegFile.set (rf : RegFile) : Reg → Int → RegFile
  | .sp, v => { rf with sp := v }
  | .s0, v => { rf with s0 := v }
  | .zero, _ => rf
  | .t0, v => { rf with t0 := v }
  | .t1, v => { rf with t1 := v }
  | .t2, v => { rf with t2 := v }
  | .t3, v => { rf with t3 := v }
  | .t4, v => { rf with t4 := v }
  | .t5, v => { rf with t5 := v }
  | .t6, v => { rf with t6 := v }

/-- Register file with every register zero. -/
def rf0 : RegFile := ⟨0, 0, 0, 0, 0, 0, 0, 0, 0⟩

/-- Byte-addressed memory; the generated code only issues aligned 4-byte
accesses. -/
abbrev Mem : Type := Int → Int

def memSet (m : Mem) (a v : Int) : Mem :=
  fun b => if b = a then v else m b

/-- Machine state: program counter (index into the instruction list),
register file, memory. -/
structure Machine where
  pc : Nat
  regs : RegFile
  mem : Mem

/-- Index of the unique label instruction carrying l; the list length
(halt) if absent. Generated labels are fresh, so at most one occurrence
exists in any generated program. -/
def labelIdx (p : List Instr) (l : Lbl) : Nat :=
  match p with
  | [] => 0
  | i :: rest => if i = Instr.label l then 0 else labelIdx rest l + 1

/-- One machine step. A branch or jump moves the pc to the label index;
every other instruction advances it by one. Past the end of the program
the machine is halted and the state is fixed. Division follows the RISC-V
rule: division by zero yields all-bits-one, quotients round toward zero
and overflow wraps. -/
def step (p : List Instr) (m : Machine) : Machine :=
  match p[m.pc]? with
  | none => m
  | some i =>
    match i with
    | .li rd v => { m with regs := m.regs.set rd (wrap32 v), pc := m.pc + 1 }
    | .lw rd off rs =>
        { m with regs := m.regs.set rd (m.mem (m.regs.get rs + off)), pc := m.pc + 1 }
    | .sw rs off rd =>
        { m with mem := memSet m.mem (m.regs.get rd + off) (m.regs.get rs), pc := m.pc + 1 }
    | .addi rd rs v =>
        { m with regs := m.regs.set rd (wrap32 (m.regs.get rs + v)), pc := m.pc + 1 }
    | .add rd r1 r2 =>
        { m with regs := m.regs.set rd (wrap32 (m.regs.get r1 + m.regs.get r2)), pc := m.pc + 1 }
    | .sub rd r1 r2 =>
        { m with regs := m.regs.set rd (wrap32 (m.regs.get r1 - m.regs.get r2)), pc := m.pc + 1 }
    | .mul rd r1 r2 =>
        { m with regs := m.regs.set rd (wrap32 (m.regs.get r1 * m.regs.get r2)), pc := m.pc + 1 }
    | .div rd r1 r2 =>
        let q : Int :=
          if m.regs.get r2 = 0 then -1
          else wrap32 (Int.tdiv (m.regs.get r1) (m.regs.get r2))
        { m with regs := m.regs.set rd q, pc := m.pc + 1 }
    | .slt rd r1 r2 =>
        let b : Int := if m.regs.get r1 < m.regs.get r2 then 1 else 0
        { m with regs := m.regs.set rd b, pc := m.pc + 1 }
    | .neg rd rs =>
        { m with regs := m.regs.set rd (wrap32 (- m.regs.get rs)), pc := m.pc + 1 }
    | .beq r1 r2 l =>
        { m with pc := if m.regs.get r1 = m.regs.get r2 then labelIdx p l else m.pc + 1 }
    | .bne r1 r2 l =>
        { m with pc := if m.regs.get r1 = m.regs.get r2 then m.pc + 1 else labelIdx p l }
    | .beqz r l =>
        { m with pc := if m.regs.get r = 0 then labelIdx p l else m.pc + 1 }
    | .bnez r l =>
        { m with pc := if m.regs.get r = 0 then m.pc + 1 else labelIdx p l }
    | .j l => { m with pc := labelIdx p l }
    | .label _ => { m with pc := m.pc + 1 }

/-- Fuelled execution returning the trace of program-counter values of
the executed instructions together with the final state; stops early when
the pc leaves the program. -/
def execT (p : List Instr) : Nat → Machine → List Nat × Machine
  | 0, m => ([], m)
  | fuel + 1, m =>
      if m.pc < p.length then
        let r := execT p fuel (step p m)
        (m.pc :: r.1, r.2)
      else ([], m)

/-- Final state after at most fuel steps. -/
def run (p : List Instr) (fuel : Nat) (m : Machine) : Machine :=
  (execT p fuel m).2

/-- Trace of executed instruction indices within the given fuel. -/
def trace (p : List Instr) (fuel : Nat) (m : Machine) : List Nat :=
  (execT p fuel m).1

/-- Machine state at entry of a binary operator: the two operands have
been pushed, the left one first, so the left operand sits at sp - 8 and
the right at sp - 4. -/
def binopEntry (rf : RegFile) (mu : Mem) (l r : Int) : Machine :=
  ⟨0, rf, memSet (memSet mu (rf.sp - 8) l) (rf.sp - 4) r⟩

/-- Machine state at entry of a unary operator: one operand on top. -/
def unopEntry (rf : RegFile) (mu : Mem) (v : Int) : Machine :=
  ⟨0, rf, memSet mu (rf.sp - 4) v⟩

/-- Stack-pointer values for which the emitted pushes and pops stay in
signed 32-bit range, so the pointer arithmetic does not wrap. -/
def spOk (rf : RegFile) : Prop :=
  -(2 ^ 31) + 8 ≤ rf.sp ∧ rf.sp < 2 ^ 31 - 8

theorem wrap32_eq_self (x : Int) (h1 : -(2 ^ 31) ≤ x) (h2 : x < 2 ^ 31) :
    wrap32 x = x := by
  unfold wrap32
  omega

/-!
Execution lemmas: running the code block emitted for each operator from
the entry configuration. Each lemma states the final top of stack, the
final stack pointer and the final program counter (the block falls
through and composes with whatever follows).
-/

set_option maxHeartbeats 1000000 in
theorem runBinopAdd (rf : RegFile) (mu : Mem) (l r : Int) (h : spOk rf) :
    (fun M : Machine => M.mem (rf.sp - 8) = wrap32 (l + r)
        ∧ M.regs.sp = rf.sp - 4 ∧ M.pc = 7)
      (run [.addi .sp .sp (-4), .lw .t2 0 .sp, .addi .sp .sp (-4), .lw .t1 0 .sp,
            .add .t0 .t1 .t2, .sw .t0 0 .sp, .addi .sp .sp 4] 7
        (binopEntry rf mu l r)) := by
  obtain ⟨hlo, hhi⟩ := h
  have h4 : wrap32 (rf.sp + -4) = rf.sp - 4 := by unfold wrap32; omega
  have h8 : wrap32 (rf.sp - 4 + -4) = rf.sp - 8 := by unfold wrap32; omega
  have hb : wrap32 (rf.sp - 8 + 4) = rf.sp - 4 := by unfold wrap32; omega
  have hne : rf.sp - 8 + 0 ≠ rf.sp - 4 := by omega
  simp [run, execT, step, labelIdx, RegFile.get, RegFile.set, memSet, binopEntry,
    h4, h8, hb, hne]

set_option maxHeartbeats 1000000 in
theorem runBinopSub (rf : RegFile) (mu : Mem) (l r : Int) (h : spOk rf) :
    (fun M : Machine => M.mem (rf.sp - 8) = wrap32 (l - r)
        ∧ M.regs.sp = rf.sp - 4 ∧ M.pc = 7)
      (run [.addi .sp .sp (-4), .lw .t2 0 .sp, .addi .sp .sp (-4), .lw .t1 0 .sp,
            .sub .t0 .t1 .t2, .sw .t0 0 .sp, .addi .sp .sp 4] 7
        (binopEntry rf mu l r)) := by
  obtain ⟨hlo, hhi⟩ := h
  have h4 : wrap32 (rf.sp + -4) = rf.sp - 4 := by unfold wrap32; omega
  have h8 : wrap32 (rf.sp - 4 + -4) = rf.sp - 8 := by unfold wrap32; omega
  have hb : wrap32 (rf.sp - 8 + 4) = rf.sp - 4 := by unfold wrap32; omega
  have hne : rf.sp - 8 + 0 ≠ rf.sp - 4 := by omega
  simp [run, execT, step, labelIdx, RegFile.get, RegFile.set, memSet, binopEntry,
    h4, h8, hb, hne]

set_option maxHeartbeats 1000000 in
theorem runBinopMul (rf : RegFile) (mu : Mem) (l r : Int) (h : spOk rf) :
    (fun M : Machine => M.mem (rf.sp - 8) = wrap32 (l * r)
        ∧ M.regs.sp = rf.sp - 4 ∧ M.pc = 7)
      (run [.addi .sp .sp (-4), .lw .t2 0 .sp, .addi .sp .sp (-4), .lw .t1 0 .sp,
            .mul .t0 .t1 .t2, .sw .t0 0 .sp, .addi .sp .sp 4] 7
        (binopEntry rf mu l r)) := by
  obtain ⟨hlo, hhi⟩ := h
  have h4 : wrap32 (rf.sp + -4) = rf.sp - 4 := by unfold wrap32; omega
  have h8 : wrap32 (rf.sp - 4 + -4) = rf.sp - 8 := by unfold wrap32; omega
  have hb : wrap32 (rf.sp - 8 + 4) = rf.sp - 4 := by unfold wrap32; omega
  have hne : rf.sp - 8 + 0 ≠ rf.sp - 4 := by omega
  simp [run, execT, step, labelIdx, RegFile.get, RegFile.set, memSet, binopEntry,
    h4, h8, hb, hne]

set_option maxHeartbeats 1000000 in
theorem runBinopDiv (rf : RegFile) (mu : Mem) (l r : Int) (h : spOk rf) :
    (fun M : Machine => M.mem (rf.sp - 8)
          = (if r = 0 then -1 else wrap32 (Int.tdiv l r))
        ∧ M.regs.sp = rf.sp - 4 ∧ M.pc = 7)
      (run [.addi .sp .sp (-4), .lw .t2 0 .sp, .addi .sp .sp (-4), .lw .t1 0 .sp,
            .div .t0 .t1 .t2, .sw .t0 0 .sp, .addi .sp .sp 4] 7
        (binopEntry rf mu l r)) := by
  obtain ⟨hlo, hhi⟩ := h
  have h4 : wrap32 (rf.sp + -4) = rf.sp - 4 := by unfold wrap32; omega
  have h8 : wrap32 (rf.sp - 4 + -4) = rf.sp - 8 := by unfold wrap32; omega
  have hb : wrap32 (rf.sp - 8 + 4) = rf.sp - 4 := by unfold wrap32; omega
  have hne : rf.sp - 8 + 0 ≠ rf.sp - 4 := by omega
  by_cases hr : r = 0
  · simp [run, execT, step, labelIdx, RegFile.get, RegFile.set, memSet, binopEntry,
      h4, h8, hb, hne, hr]
  · simp [run, execT, step, labelIdx, RegFile.get, RegFile.set, memSet, binopEntry,
      h4, h8, hb, hne, hr]

set_option maxHeartbeats 1000000 in
theorem runBinopLt (rf : RegFile) (mu : Mem) (l r : Int) (h : spOk rf) :
    (fun M : Machine => M.mem (rf.sp - 8) = (if l < r then -1 else 0)
        ∧ M.regs.sp = rf.sp - 4 ∧ M.pc = 8)
      (run [.addi .sp .sp (-4), .lw .t2 0 .sp, .addi .sp .sp (-4), .lw .t1 0 .sp,
            .slt .t0 .t1 .t2, .neg .t0 .t0, .sw .t0 0 .sp, .addi .sp .sp 4] 8
        (binopEntry rf mu l r)) := by
  obtain ⟨hlo, hhi⟩ := h
  have h4 : wrap32 (rf.sp + -4) = rf.sp - 4 := by unfold wrap32; omega
  have h8 : wrap32 (rf.sp - 4 + -4) = rf.sp - 8 := by unfold wrap32; omega
  have hb : wrap32 (rf.sp - 8 + 4) = rf.sp - 4 := by unfold wrap32; omega
  have hne : rf.sp - 8 + 0 ≠ rf.sp - 4 := by omega
  have hw1 : wrap32 (-1) = -1 := by unfold wrap32; omega
  have hw00 : wrap32 0 = 0 := by unfold wrap32; omega
  by_cases hc : l < r
  · simp [run, execT, step, labelIdx, RegFile.get, RegFile.set, memSet, binopEntry,
      h4, h8, hb, hne, hw1, hw00, hc]
  · simp [run, execT, step, labelIdx, RegFile.get, RegFile.set, memSet, binopEntry,
      h4, h8, hb, hne, hw1, hw00, hc]

set_option maxHeartbeats 1000000 in
theorem runBinopGt (rf : RegFile) (mu : Mem) (l r : Int) (h : spOk rf) :
    (fun M : Machine => M.mem (rf.sp - 8) = (if r < l then -1 else 0)
        ∧ M.regs.sp = rf.sp - 4 ∧ M.pc = 8)
      (run [.addi .sp .sp (-4), .lw .t2 0 .sp, .addi .sp .sp (-4), .lw .t1 0 .sp,
            .slt .t0 .t2 .t1, .neg .t0 .t0, .sw .t0 0 .sp, .addi .sp .sp 4] 8
        (binopEntry rf mu l r)) := by
  obtain ⟨hlo, hhi⟩ := h
  have h4 : wrap32 (rf.sp + -4) = rf.sp - 4 := by unfold wrap32; omega
  have h8 : wrap32 (rf.sp - 4 + -4) = rf.sp - 8 := by unfold wrap32; omega
  have hb : wrap32 (rf.sp - 8 + 4) = rf.sp - 4 := by unfold wrap32; omega
  have hne : rf.sp - 8 + 0 ≠ rf.sp - 4 := by omega
  have hw1 : wrap32 (-1) = -1 := by unfold wrap32; omega
  have hw00 : wrap32 0 = 0 := by unfold wrap32; omega
  by_cases hc : r < l
  · simp [run, execT, step, labelIdx, RegFile.get, RegFile.set, memSet, binopEntry,
      h4, h8, hb, hne, hw1, hw00, hc]
  · simp [run, execT, step, labelIdx, RegFile.get, RegFile.set, memSet, binopEntry,
      h4, h8, hb, hne, hw1, hw00, hc]

set_option maxHeartbeats 2000000 in
theorem runBinopLe (n : Nat) (rf : RegFile) (mu : Mem) (l r : Int) (h : spOk rf) :
    (fun M : Machine => M.mem (rf.sp - 8) = (if l ≤ r then -1 else 0)
        ∧ M.regs.sp = rf.sp - 4 ∧ M.pc = 11)
      (run [.addi .sp .sp (-4), .lw .t2 0 .sp, .addi .sp .sp (-4), .lw .t1 0 .sp,
            .li .t0 1, .beq .t1 .t2 (.gen n), .slt .t0 .t1 .t2,
            .label (.gen n), .neg .t0 .t0, .sw .t0 0 .sp, .addi .sp .sp 4] 11
        (binopEntry rf mu l r)) := by
  obtain ⟨hlo, hhi⟩ := h
  have h4 : wrap32 (rf.sp + -4) = rf.sp - 4 := by unfold wrap32; omega
  have h8 : wrap32 (rf.sp - 4 + -4) = rf.sp - 8 := by unfold wrap32; omega
  have hb : wrap32 (rf.sp - 8 + 4) = rf.sp - 4 := by unfold wrap32; omega
  have hne : rf.sp - 8 + 0 ≠ rf.sp - 4 := by omega
  have hw1 : wrap32 (-1) = -1 := by unfold wrap32; omega
  have hw1p : wrap32 1 = 1 := by unfold wrap32; omega
  have hw00 : wrap32 0 = 0 := by unfold wrap32; omega
  by_cases hc : l = r
  · have hif : (if l ≤ r then (-1 : Int) else 0) = -1 := if_pos (by omega)
    simp [run, execT, step, labelIdx, RegFile.get, RegFile.set, memSet, binopEntry,
      h4, h8, hb, hne, hw1, hw1p, hw00, hc, hif]
  · by_cases hlt : l < r
    · have hif : (if l ≤ r then (-1 : Int) else 0) = -1 := if_pos (by omega)
      simp [run, execT, step, labelIdx, RegFile.get, RegFile.set, memSet, binopEntry,
        h4, h8, hb, hne, hw1, hw1p, hw00, hc, hlt, hif]
    · have hif : (if l ≤ r then (-1 : Int) else 0) = 0 := if_neg (by omega)
      simp [run, execT, step, labelIdx, RegFile.get, RegFile.set, memSet, binopEntry,
        h4, h8, hb, hne, hw1, hw1p, hw00, hc, hlt, hif]

set_option maxHeartbeats 2000000 in
theorem runBinopGe (n : Nat) (rf : RegFile) (mu : Mem) (l r : Int) (h : spOk rf) :
    (fun M : Machine => M.mem (rf.sp - 8) = (if r ≤ l then -1 else 0)
        ∧ M.regs.sp = rf.sp - 4 ∧ M.pc = 11)
      (run [.addi .sp .sp (-4), .lw .t2 0 .sp, .addi .sp .sp (-4), .lw .t1 0 .sp,
            .li .t0 1, .beq .t1 .t2 (.gen n), .slt .t0 .t2 .t1,
            .label (.gen n), .neg .t0 .t0, .sw .t0 0 .sp, .addi .sp .sp 4] 11
        (binopEntry rf mu l r)) := by
  obtain ⟨hlo, hhi⟩ := h
  have h4 : wrap32 (rf.sp + -4) = rf.sp - 4 := by unfold wrap32; omega
  have h8 : wrap32 (rf.sp - 4 + -4) = rf.sp - 8 := by unfold wrap32; omega
  have hb : wrap32 (rf.sp - 8 + 4) = rf.sp - 4 := by unfold wrap32; omega
  have hne : rf.sp - 8 + 0 ≠ rf.sp - 4 := by omega
  have hw1 : wrap32 (-1) = -1 := by unfold wrap32; omega
  have hw1p : wrap32 1 = 1 := by unfold wrap32; omega
  have hw00 : wrap32 0 = 0 := by unfold wrap32; omega
  by_cases hc : l = r
  · have hif : (if r ≤ l then (-1 : Int) else 0) = -1 := if_pos (by omega)
    simp [run, execT, step, labelIdx, RegFile.get, RegFile.set, memSet, binopEntry,
      h4, h8, hb, hne, hw1, hw1p, hw00, hc, hif]
  · by_cases hlt : r < l
    · have hif : (if r ≤ l then (-1 : Int) else 0) = -1 := if_pos (by omega)
      simp [run, execT, step, labelIdx, RegFile.get, RegFile.set, memSet, binopEntry,
        h4, h8, hb, hne, hw1, hw1p, hw00, hc, hlt, hif]
    · have hif : (if r ≤ l then (-1 : Int) else 0) = 0 := if_neg (by omega)
      simp [run, execT, step, labelIdx, RegFile.get, RegFile.set, memSet, binopEntry,
        h4, h8, hb, hne, hw1, hw1p, hw00, hc, hlt, hif]

set_option maxHeartbeats 2000000 in
theorem runBinopEq (n : Nat) (rf : RegFile) (mu : Mem) (l r : Int) (h : spOk rf) :
    (fun M : Machine => M.mem (rf.sp - 8) = (if l = r then -1 else 0)
        ∧ M.regs.sp = rf.sp - 4 ∧ M.pc = 11)
      (run [.addi .sp .sp (-4), .lw .t2 0 .sp, .addi .sp .sp (-4), .lw .t1 0 .sp,
            .li .t0 1, .beq .t1 .t2 (.gen n), .li .t0 0,
            .label (.gen n), .neg .t0 .t0, .sw .t0 0 .sp, .addi .sp .sp 4] 11
        (binopEntry rf mu l r)) := by
  obtain ⟨hlo, hhi⟩ := h
  have h4 : wrap32 (rf.sp + -4) = rf.sp - 4 := by unfold wrap32; omega
  have h8 : wrap32 (rf.sp - 4 + -4) = rf.sp - 8 := by unfold wrap32; omega
  have hb : wrap32 (rf.sp - 8 + 4) = rf.sp - 4 := by unfold wrap32; omega
  have hne : rf.sp - 8 + 0 ≠ rf.sp - 4 := by omega
  have hw1 : wrap32 (-1) = -1 := by unfold wrap32; omega
  have hw1p : wrap32 1 = 1 := by unfold wrap32; omega
  have hw00 : wrap32 0 = 0 := by unfold wrap32; omega
  by_cases hc : l = r
  · simp [run, execT, step, labelIdx, RegFile.get, RegFile.set, memSet, binopEntry,
      h4, h8, hb, hne, hw1, hw1p, hw00, hc]
  · simp [run, execT, step, labelIdx, RegFile.get, RegFile.set, memSet, binopEntry,
      h4, h8, hb, hne, hw1, hw1p, hw00, hc]

set_option maxHeartbeats 2000000 in
theorem runBinopNe (n : Nat) (rf : RegFile) (mu : Mem) (l r : Int) (h : spOk rf) :
    (fun M : Machine => M.mem (rf.sp - 8) = (if l = r then 0 else -1)
        ∧ M.regs.sp = rf.sp - 4 ∧ M.pc = 11)
      (run [.addi .sp .sp (-4), .lw .t2 0 .sp, .addi .sp .sp (-4), .lw .t1 0 .sp,
            .li .t0 1, .bne .t1 .t2 (.gen n), .li .t0 0,
            .label (.gen n), .neg .t0 .t0, .sw .t0 0 .sp, .addi .sp .sp 4] 11
        (binopEntry rf mu l r)) := by
  obtain ⟨hlo, hhi⟩ := h
  have h4 : wrap32 (rf.sp + -4) = rf.sp - 4 := by unfold wrap32; omega
  have h8 : wrap32 (rf.sp - 4 + -4) = rf.sp - 8 := by unfold wrap32; omega
  have hb : wrap32 (rf.sp - 8 + 4) = rf.sp - 4 := by unfold wrap32; omega
  have hne : rf.sp - 8 + 0 ≠ rf.sp - 4 := by omega
  have hw1 : wrap32 (-1) = -1 := by unfold wrap32; omega
  have hw1p : wrap32 1 = 1 := by unfold wrap32; omega
  have hw00 : wrap32 0 = 0 := by unfold wrap32; omega
  by_cases hc : l = r
  · simp [run, execT, step, labelIdx, RegFile.get, RegFile.set, memSet, binopEntry,
      h4, h8, hb, hne, hw1, hw1p, hw00, hc]
  · simp [run, execT, step, labelIdx, RegFile.get, RegFile.set, memSet, binopEntry,
      h4, h8, hb, hne, hw1, hw1p, hw00, hc]

set_option maxHeartbeats 2000000 in
theorem runBinopAnd (n : Nat) (rf : RegFile) (mu : Mem) (l r : Int) (h : spOk rf) :
    (fun M : Machine => M.mem (rf.sp - 8) = (if l ≠ 0 ∧ r ≠ 0 then -1 else 0)
        ∧ M.regs.sp = rf.sp - 4 ∧ M.pc = 12)
      (run [.addi .sp .sp (-4), .lw .t2 0 .sp, .addi .sp .sp (-4), .lw .t1 0 .sp,
            .li .t0 0, .beqz .t1 (.gen n), .beqz .t2 (.gen n), .li .t0 1,
            .label (.gen n), .neg .t0 .t0, .sw .t0 0 .sp, .addi .sp .sp 4] 12
        (binopEntry rf mu l r)) := by
  obtain ⟨hlo, hhi⟩ := h
  have h4 : wrap32 (rf.sp + -4) = rf.sp - 4 := by unfold wrap32; omega
  have h8 : wrap32 (rf.sp - 4 + -4) = rf.sp - 8 := by unfold wrap32; omega
  have hb : wrap32 (rf.sp - 8 + 4) = rf.sp - 4 := by unfold wrap32; omega
  have hne : rf.sp - 8 + 0 ≠ rf.sp - 4 := by omega
  have hw1 : wrap32 (-1) = -1 := by unfold wrap32; omega
  have hw1p : wrap32 1 = 1 := by unfold wrap32; omega
  have hw00 : wrap32 0 = 0 := by unfold wrap32; omega
  by_cases hl : l = 0
  · have hif : (if l ≠ 0 ∧ r ≠ 0 then (-1 : Int) else 0) = 0 := if_neg (by omega)
    simp [run, execT, step, labelIdx, RegFile.get, RegFile.set, memSet, binopEntry,
      h4, h8, hb, hne, hw1, hw1p, hw00, hl, hif]
  · by_cases hr : r = 0
    · have hif : (if l ≠ 0 ∧ r ≠ 0 then (-1 : Int) else 0) = 0 := if_neg (by omega)
      simp [run, execT, step, labelIdx, RegFile.get, RegFile.set, memSet, binopEntry,
        h4, h8, hb, hne, hw1, hw1p, hw00, hl, hr, hif]
    · have hif : (if l ≠ 0 ∧ r ≠ 0 then (-1 : Int) else 0) = -1 := if_pos (by omega)
      simp [run, execT, step, labelIdx, RegFile.get, RegFile.set, memSet, binopEntry,
        h4, h8, hb, hne, hw1, hw1p, hw00, hl, hr, hif]

set_option maxHeartbeats 2000000 in
theorem runBinopOr (n : Nat) (rf : RegFile) (mu : Mem) (l r : Int) (h : spOk rf) :
    (fun M : Machine => M.mem (rf.sp - 8) = (if l ≠ 0 ∨ r ≠ 0 then -1 else 0)
        ∧ M.regs.sp = rf.sp - 4 ∧ M.pc = 12)
      (run [.addi .sp .sp (-4), .lw .t2 0 .sp, .addi .sp .sp (-4), .lw .t1 0 .sp,
            .li .t0 1, .bnez .t1 (.gen n), .bnez .t2 (.gen n), .li .t0 0,
            .label (.gen n), .neg .t0 .t0, .sw .t0 0 .sp, .addi .sp .sp 4] 12
        (binopEntry rf mu l r)) := by
  obtain ⟨hlo, hhi⟩ := h
  have h4 : wrap32 (rf.sp + -4) = rf.sp - 4 := by unfold wrap32; omega
  have h8 : wrap32 (rf.sp - 4 + -4) = rf.sp - 8 := by unfold wrap32; omega
  have hb : wrap32 (rf.sp - 8 + 4) = rf.sp - 4 := by unfold wrap32; omega
  have hne : rf.sp - 8 + 0 ≠ rf.sp - 4 := by omega
  have hw1 : wrap32 (-1) = -1 := by unfold wrap32; omega
  have hw1p : wrap32 1 = 1 := by unfold wrap32; omega
  have hw00 : wrap32 0 = 0 := by unfold wrap32; omega
  by_cases hl : l = 0
  · by_cases hr : r = 0
    · have hif : (if l ≠ 0 ∨ r ≠ 0 then (-1 : Int) else 0) = 0 := if_neg (by omega)
      simp [run, execT, step, labelIdx, RegFile.get, RegFile.set, memSet, binopEntry,
        h4, h8, hb, hne, hw1, hw1p, hw00, hl, hr, hif]
    · have hif : (if l ≠ 0 ∨ r ≠ 0 then (-1 : Int) else 0) = -1 := if_pos (by omega)
      simp [run, execT, step, labelIdx, RegFile.get, RegFile.set, memSet, binopEntry,
        h4, h8, hb, hne, hw1, hw1p, hw00, hl, hr, hif]
  · have hif : (if l ≠ 0 ∨ r ≠ 0 then (-1 : Int) else 0) = -1 := if_pos (by omega)
    simp [run, execT, step, labelIdx, RegFile.get, RegFile.set, memSet, binopEntry,
      h4, h8, hb, hne, hw1, hw1p, hw00, hl, hif]

set_option maxHeartbeats 2000000 in
theorem runUnopInvert (n : Nat) (rf : RegFile) (mu : Mem) (v : Int) (h : spOk rf) :
    (fun M : Machine => M.mem (rf.sp - 4) = (if v = 0 then -1 else 0)
        ∧ M.regs.sp = rf.sp ∧ M.pc = 9)
      (run [.addi .sp .sp (-4), .lw .t1 0 .sp,
            .li .t0 1, .beqz .t1 (.gen n), .li .t0 0,
            .label (.gen n), .neg .t0 .t0, .sw .t0 0 .sp, .addi .sp .sp 4] 9
        (unopEntry rf mu v)) := by
  obtain ⟨hlo, hhi⟩ := h
  have h4 : wrap32 (rf.sp + -4) = rf.sp - 4 := by unfold wrap32; omega
  have hb : wrap32 (rf.sp - 4 + 4) = rf.sp := by unfold wrap32; omega
  have hsp : wrap32 rf.sp = rf.sp := by unfold wrap32; omega
  have hw1 : wrap32 (-1) = -1 := by unfold wrap32; omega
  have hw1p : wrap32 1 = 1 := by unfold wrap32; omega
  have hw00 : wrap32 0 = 0 := by unfold wrap32; omega
  by_cases hc : v = 0
  · simp [run, execT, step, labelIdx, RegFile.get, RegFile.set, memSet, unopEntry,
      h4, hb, hsp, hw1, hw1p, hw00, hc]
  · simp [run, execT, step, labelIdx, RegFile.get, RegFile.set, memSet, unopEntry,
      h4, hb, hsp, hw1, hw1p, hw00, hc]

set_option maxHeartbeats 1000000 in
theorem runDup (rf : RegFile) (mu : Mem) (a : Int) (h : spOk rf) :
    (fun M : Machine => M.mem (rf.sp - 4) = a ∧ M.mem rf.sp = a
        ∧ M.regs.sp = rf.sp + 4 ∧ M.pc = 5)
      (run dupCode 5 (unopEntry rf mu a)) := by
  obtain ⟨hlo, hhi⟩ := h
  have h4 : wrap32 (rf.sp + -4) = rf.sp - 4 := by unfold wrap32; omega
  have hb : wrap32 (rf.sp - 4 + 4) = rf.sp := by unfold wrap32; omega
  have hp : wrap32 (rf.sp + 4) = rf.sp + 4 := by unfold wrap32; omega
  have hsp : wrap32 rf.sp = rf.sp := by unfold wrap32; omega
  have hne : rf.sp - 4 ≠ rf.sp + 0 := by omega
  have hne2 : rf.sp - 4 ≠ rf.sp := by omega
  simp [run, execT, step, labelIdx, RegFile.get, RegFile.set, memSet, unopEntry,
    dupCode, h4, hb, hp, hsp, hne, hne2]

set_option maxHeartbeats 1000000 in
theorem runSwap (rf : RegFile) (mu : Mem) (a b : Int) (h : spOk rf) :
    (fun M : Machine => M.mem (rf.sp - 8) = b ∧ M.mem (rf.sp - 4) = a
        ∧ M.regs.sp = rf.sp ∧ M.pc = 8)
      (run swapCode 8 (binopEntry rf mu a b)) := by
  obtain ⟨hlo, hhi⟩ := h
  have h4 : wrap32 (rf.sp + -4) = rf.sp - 4 := by unfold wrap32; omega
  have h8 : wrap32 (rf.sp - 4 + -4) = rf.sp - 8 := by unfold wrap32; omega
  have hb : wrap32 (rf.sp - 8 + 4) = rf.sp - 4 := by unfold wrap32; omega
  have hc : wrap32 (rf.sp - 4 + 4) = rf.sp := by unfold wrap32; omega
  have hsp : wrap32 rf.sp = rf.sp := by unfold wrap32; omega
  have hne : rf.sp - 8 + 0 ≠ rf.sp - 4 := by omega
  have hne2 : rf.sp - 4 + 0 ≠ rf.sp - 8 := by omega
  simp [run, execT, step, labelIdx, RegFile.get, RegFile.set, memSet, binopEntry,
    swapCode, h4, h8, hb, hc, hsp, hne, hne2]

/-!
Grammar predicates. The participle parser of forthc.go accepts a node at
top level exactly when its struct appears in the Expression union, and in
a definition body exactly when it appears in the DefinitionExpression
union; nested body lists are one-or-more sequences of definition-body
nodes (the else body may also be absent, hence empty). The operator
strings are constrained by the struct tags of BinOpNode and UnOpNode.
-/

/-- Operator strings matched by the BinOpNode parser tag. -/
def binOps : List String :=
  ["+", "-", "*", "/", "<", ">", "<=", ">=", "=", "<>", "and", "or"]

mutual

/-- Acceptance by the DefinitionExpression grammar mode (the second
participle union, lines 65 to 76 of forthc.go). -/
def DefExprB : Expr → Bool
  | .IntegerNode _ => true
  | .SymbolNode _ => true
  | .BinOpNode op => binOps.contains op
  | .UnOpNode op => op == "invert"
  | .VariableDefNode _ => false
  | .ReceiveNode _ => true
  | .AssignNode _ => true
  | .CmoveNode => true
  | .SymbolDefNode _ _ => false
  | .IfThenElseNode thenBody elseBody =>
      !thenBody.isEmpty && DefListB thenBody && DefListB elseBody
  | .DoLoopNode body => !body.isEmpty && DefListB body
  | .BeginUntilNode body => !body.isEmpty && DefListB body

/-- Every element of the list is a definition-body expression. -/
def DefListB : List Expr → Bool
  | [] => true
  | e :: rest => DefExprB e && DefListB rest

end

/-- Acceptance by the top-level Expression grammar mode (the first
participle union, lines 54 to 64 of forthc.go). -/
def TopExprB : Expr → Bool
  | .IntegerNode _ => true
  | .SymbolNode _ => true
  | .BinOpNode op => binOps.contains op
  | .UnOpNode op => op == "invert"
  | .VariableDefNode _ => true
  | .ReceiveNode _ => true
  | .AssignNode _ => true
  | .CmoveNode => true
  | .SymbolDefNode _ body => !body.isEmpty && DefListB body
  | .IfThenElseNode _ _ => false
  | .DoLoopNode _ => false
  | .BeginUntilNode _ => false

mutual

/-- Modelled from the spec: acceptance by the top-level grammar mode as
the claim states it — only integer literals, symbol references,
binary/unary operators, and word definitions. -/
def SpecTopExprB : Expr → Bool
  | .IntegerNode _ => true
  | .SymbolNode _ => true
  | .BinOpNode op => binOps.contains op
  | .UnOpNode op => op == "invert"
  | .SymbolDefNode _ body => !body.isEmpty && SpecDefListB body
  | _ => false

/-- Modelled from the spec: acceptance by the definition-body grammar
mode as the claim states it — the four basic kinds plus conditionals,
counted loops, indefinite loops, variable declarations, address
receive/assign, and block copy, and never nested word definitions. -/
def SpecDefExprB : Expr → Bool
  | .IntegerNode _ => true
  | .SymbolNode _ => true
  | .BinOpNode op => binOps.contains op
  | .UnOpNode op => op == "invert"
  | .VariableDefNode _ => true
  | .ReceiveNode _ => true
  | .AssignNode _ => true
  | .CmoveNode => true
  | .SymbolDefNode _ _ => false
  | .IfThenElseNode thenBody elseBody =>
      !thenBody.isEmpty && SpecDefListB thenBody && SpecDefListB elseBody
  | .DoLoopNode body => !body.isEmpty && SpecDefListB body
  | .BeginUntilNode body => !body.isEmpty && SpecDefListB body

def SpecDefListB : List Expr → Bool
  | [] => true
  | e :: rest => SpecDefExprB e && SpecDefListB rest

end

mutual

/-- Amended description of the top-level grammar mode: the four basic
kinds, word definitions, and additionally variable declarations, address
receive/assign and block copy; conditionals and loops are excluded. -/
def AmendedTopExprB : Expr → Bool
  | .IntegerNode _ => true
  | .SymbolNode _ => true
  | .BinOpNode op => binOps.contains op
  | .UnOpNode op => op == "invert"
  | .VariableDefNode _ => true
  | .ReceiveNode _ => true
  | .AssignNode _ => true
  | .CmoveNode => true
  | .SymbolDefNode _ body => !body.isEmpty && AmendedDefListB body
  | .IfThenElseNode _ _ => false
  | .DoLoopNode _ => false
  | .BeginUntilNode _ => false

/-- Amended description of the definition-body grammar mode: the four
basic kinds plus conditionals, counted loops, indefinite loops, address
receive/assign and block copy; word definitions and also variable
declarations are excluded. -/
def AmendedDefExprB : Expr → Bool
  | .IntegerNode _ => true
  | .SymbolNode _ => true
  | .BinOpNode op => binOps.contains op
  | .UnOpNode op => op == "invert"
  | .VariableDefNode _ => false
  | .ReceiveNode _ => true
  | .AssignNode _ => true
  | .CmoveNode => true
  | .SymbolDefNode _ _ => false
  | .IfThenElseNode thenBody elseBody =>
      !thenBody.isEmpty && AmendedDefListB thenBody && AmendedDefListB elseBody
  | .DoLoopNode body => !body.isEmpty && AmendedDefListB body
  | .BeginUntilNode body => !body.isEmpty && AmendedDefListB body

def AmendedDefListB : List Expr → Bool
  | [] => true
  | e :: rest => AmendedDefExprB e && AmendedDefListB rest

end

/-!
Environment lemmas: lookup against insert and erase, matching Go map
assignment and delete.
-/

theorem envLookup_erase_ne (k k1 : String) (e : Env) (h : k ≠ k1) :
    envLookup k (envErase k1 e) = envLookup k e := by
  induction e with
  | nil => rfl
  | cons p rest ih =>
      obtain ⟨k2, v2⟩ := p
      by_cases h2 : k2 = k1
      · subst h2
        have hk : k ≠ k2 := h
        simp [envErase, envLookup, List.filter_cons, hk, ih] at ih ⊢
        exact ih
      · by_cases hk : k = k2
        · subst hk
          simp [envErase, envLookup, List.filter_cons, h2]
        · simp [envErase, envLookup, List.filter_cons, h2, hk] at ih ⊢
          exact ih

theorem envLookup_erase_same (k : String) (e : Env) :
    envLookup k (envErase k e) = none := by
  induction e with
  | nil => rfl
  | cons p rest ih =>
      obtain ⟨k2, v2⟩ := p
      by_cases h2 : k2 = k
      · subst h2
        simpa [envErase, envLookup, List.filter_cons] using ih
      · have hk : k ≠ k2 := fun hh => h2 hh.symm
        simp [envErase, envLookup, List.filter_cons, h2, hk] at ih ⊢
        exact ih

theorem envLookup_insert_same (k : String) (v : List Instr) (e : Env) :
    envLookup k (envInsert k v e) = some v := by
  simp [envInsert, envLookup]

theorem envLookup_insert_ne (k k1 : String) (v : List Instr) (e : Env) (h : k ≠ k1) :
    envLookup k (envInsert k1 v e) = envLookup k e := by
  simp [envInsert, envLookup, h, envLookup_erase_ne k k1 e h]


theorem generate_heap_mono :
    ∀ (cd : Codegen) (e : Expr), ∀ (cd1 : Codegen) (out : List Instr),
      generate cd e = .ok (cd1, out) → cd.HeapOffset ≤ cd1.HeapOffset := by
  apply generate.induct
    (fun cd e => ∀ cd1 out, generate cd e = .ok (cd1, out) → cd.HeapOffset ≤ cd1.HeapOffset)
    (fun cd es => ∀ cd1 out, generateList cd es = .ok (cd1, out) → cd.HeapOffset ≤ cd1.HeapOffset)
  · intro cd v cd1 out h
    simp only [generate, Except.ok.injEq, Prod.mk.injEq] at h
    obtain ⟨h1, h2⟩ := h
    subst h1
    exact le_refl _
  · intro cd op hmid cd1 out h
    simp_all [generate]
  · intro cd op mid hmid cd1 out h
    simp only [generate, hmid, Except.ok.injEq, Prod.mk.injEq] at h
    obtain ⟨h1, h2⟩ := h
    subst h1
    exact le_refl _
  · intro cd op hmid cd1 out h
    simp_all [generate]
  · intro cd op mid hmid cd1 out h
    simp only [generate, hmid, Except.ok.injEq, Prod.mk.injEq] at h
    obtain ⟨h1, h2⟩ := h
    subst h1
    exact le_refl _
  · intro cd name henv cd1 out h
    simp_all [generate]
  · intro cd name mid henv cd1 out h
    simp only [generate, henv, Except.ok.injEq, Prod.mk.injEq] at h
    obtain ⟨h1, h2⟩ := h
    subst h1
    exact le_refl _
  · intro cd sym body msg hbody ih cd1 out h
    simp_all [generate]
  · intro cd sym body cdb outb hbody ih cd1 out h
    simp only [generate, hbody, Except.ok.injEq, Prod.mk.injEq] at h
    obtain ⟨h1, h2⟩ := h
    subst h1
    exact ih cdb outb hbody
  · intro cd thenB elseB msg hthen ih cd1 out h
    simp_all [generate]
  · intro cd thenB elseB cdt outt hthen msg helse ih1 ih2 cd1 out h
    simp_all [generate]
  · intro cd thenB elseB cdt outt hthen cde oute helse ih1 ih2 cd1 out h
    simp only [generate, hthen, helse, Except.ok.injEq, Prod.mk.injEq] at h
    obtain ⟨h1, h2⟩ := h
    subst h1
    exact le_trans (ih1 cdt outt hthen) (ih2 cde oute helse)
  · intro cd body val hi msg hbody ih cd1 out h
    simp_all [generate]
  · intro cd body val hi cdb outb hbody ih cd1 out h
    simp only [generate, hi, hbody, Except.ok.injEq, Prod.mk.injEq] at h
    obtain ⟨h1, h2⟩ := h
    subst h1
    exact ih cdb outb hbody
  · intro cd body hi msg hbody ih cd1 out h
    simp_all [generate]
  · intro cd body hi cdb outb hbody ih cd1 out h
    simp only [generate, hi, hbody, Except.ok.injEq, Prod.mk.injEq] at h
    obtain ⟨h1, h2⟩ := h
    subst h1
    exact ih cdb outb hbody
  · intro cd body msg hbody ih cd1 out h
    simp_all [generate]
  · intro cd body cdb outb hbody ih cd1 out h
    simp only [generate, hbody, Except.ok.injEq, Prod.mk.injEq] at h
    obtain ⟨h1, h2⟩ := h
    subst h1
    exact ih cdb outb hbody
  · intro cd ident cd1 out h
    simp only [generate, Except.ok.injEq, Prod.mk.injEq] at h
    obtain ⟨h1, h2⟩ := h
    subst h1
    show cd.HeapOffset ≤ cd.HeapOffset + 4
    omega
  · intro cd ident henv cd1 out h
    simp_all [generate]
  · intro cd ident mid henv cd1 out h
    simp only [generate, henv, Except.ok.injEq, Prod.mk.injEq] at h
    obtain ⟨h1, h2⟩ := h
    subst h1
    exact le_refl _
  · intro cd ident henv cd1 out h
    simp_all [generate]
  · intro cd ident mid henv cd1 out h
    simp only [generate, henv, Except.ok.injEq, Prod.mk.injEq] at h
    obtain ⟨h1, h2⟩ := h
    subst h1
    exact le_refl _
  · intro cd cd1 out h
    simp only [generate, Except.ok.injEq, Prod.mk.injEq] at h
    obtain ⟨h1, h2⟩ := h
    subst h1
    exact le_refl _
  · intro cd cd1 out h
    simp only [generateList, Except.ok.injEq, Prod.mk.injEq] at h
    obtain ⟨h1, h2⟩ := h
    subst h1
    exact le_refl _
  · intro cd e rest msg hgen ih cd1 out h
    simp_all [generateList]
  · intro cd e rest cdm outm hgen msg hrest ih1 ih2 cd1 out h
    simp_all [generateList]
  · intro cd e rest cdm outm hgen cdr outr hrest ih1 ih2 cd1 out h
    simp only [generateList, hgen, hrest, Except.ok.injEq, Prod.mk.injEq] at h
    obtain ⟨h1, h2⟩ := h
    subst h1
    exact le_trans (ih1 cdm outm hgen) (ih2 cdr outr hrest)

theorem generateList_heap_mono :
    ∀ (cd : Codegen) (es : List Expr) (cd1 : Codegen) (out : List Instr),
      generateList cd es = .ok (cd1, out) → cd.HeapOffset ≤ cd1.HeapOffset := by
  intro cd es
  induction es generalizing cd with
  | nil =>
      intro cd1 out h
      simp only [generateList, Except.ok.injEq, Prod.mk.injEq] at h
      obtain ⟨h1, h2⟩ := h
      subst h1
      exact le_refl _
  | cons e rest ih =>
      intro cd1 out h
      cases hg : generate cd e with
      | error msg => simp [generateList, hg] at h
      | ok p =>
          obtain ⟨cdm, outm⟩ := p
          cases hr : generateList cdm rest with
          | error msg => simp [generateList, hg, hr] at h
          | ok q =>
              obtain ⟨cdr, outr⟩ := q
              simp only [generateList, hg, hr, Except.ok.injEq, Prod.mk.injEq] at h
              obtain ⟨h1, h2⟩ := h
              subst h1
              exact le_trans (generate_heap_mono cd e cdm outm hg) (ih cdm cdr outr hr)


theorem generate_preserves_i :
    ∀ (cd : Codegen) (e : Expr), ∀ (v : List Instr) (cd1 : Codegen) (out : List Instr),
      DefExprB e = true → envLookup "i" cd.Environment = some v →
      generate cd e = .ok (cd1, out) → envLookup "i" cd1.Environment = some v := by
  apply generate.induct
    (fun cd e => ∀ v cd1 out, DefExprB e = true → envLookup "i" cd.Environment = some v →
      generate cd e = .ok (cd1, out) → envLookup "i" cd1.Environment = some v)
    (fun cd es => ∀ v cd1 out, DefListB es = true → envLookup "i" cd.Environment = some v →
      generateList cd es = .ok (cd1, out) → envLookup "i" cd1.Environment = some v)
  · intro cd vv v cd1 out hwf hi h
    simp only [generate, Except.ok.injEq, Prod.mk.injEq] at h
    obtain ⟨h1, h2⟩ := h
    subst h1
    exact hi
  · intro cd op hmid v cd1 out hwf hi h
    simp_all [generate]
  · intro cd op mid hmid v cd1 out hwf hi h
    simp only [generate, hmid, Except.ok.injEq, Prod.mk.injEq] at h
    obtain ⟨h1, h2⟩ := h
    subst h1
    exact hi
  · intro cd op hmid v cd1 out hwf hi h
    simp_all [generate]
  · intro cd op mid hmid v cd1 out hwf hi h
    simp only [generate, hmid, Except.ok.injEq, Prod.mk.injEq] at h
    obtain ⟨h1, h2⟩ := h
    subst h1
    exact hi
  · intro cd name henv v cd1 out hwf hi h
    simp_all [generate]
  · intro cd name mid henv v cd1 out hwf hi h
    simp only [generate, henv, Except.ok.injEq, Prod.mk.injEq] at h
    obtain ⟨h1, h2⟩ := h
    subst h1
    exact hi
  · intro cd sym body msg hbody ih v cd1 out hwf hi h
    simp [DefExprB] at hwf
  · intro cd sym body cdb outb hbody ih v cd1 out hwf hi h
    simp [DefExprB] at hwf
  · intro cd thenB elseB msg hthen ih v cd1 out hwf hi h
    simp_all [generate]
  · intro cd thenB elseB cdt outt hthen msg helse ih1 ih2 v cd1 out hwf hi h
    simp_all [generate]
  · intro cd thenB elseB cdt outt hthen cde oute helse ih1 ih2 v cd1 out hwf hi h
    simp only [DefExprB, Bool.and_eq_true] at hwf
    obtain ⟨⟨hne, hwt⟩, hwe⟩ := hwf
    simp only [generate, hthen, helse, Except.ok.injEq, Prod.mk.injEq] at h
    obtain ⟨h1, h2⟩ := h
    subst h1
    exact ih2 v cde oute hwe (ih1 v cdt outt hwt hi hthen) helse
  · intro cd body val hi2 msg hbody ih v cd1 out hwf hi h
    simp_all [generate]
  · intro cd body val hi2 cdb outb hbody ih v cd1 out hwf hi h
    simp only [DefExprB, Bool.and_eq_true] at hwf
    obtain ⟨hne, hwb⟩ := hwf
    simp only [generate, hi2, hbody, Except.ok.injEq, Prod.mk.injEq] at h
    obtain ⟨h1, h2⟩ := h
    subst h1
    have hij : ("i" : String) ≠ "j" := by decide
    have hstep : envLookup "i" (envInsert "j" pushIdxJ cd.Environment) = some v := by
      rw [envLookup_insert_ne _ _ _ _ hij]
      exact hi
    have hcdb : envLookup "i" cdb.Environment = some v :=
      ih v cdb outb hwb hstep hbody
    show envLookup "i" (envErase "j" cdb.Environment) = some v
    rw [envLookup_erase_ne _ _ _ hij]
    exact hcdb
  · intro cd body hi2 msg hbody ih v cd1 out hwf hi h
    rw [hi2] at hi
    simp at hi
  · intro cd body hi2 cdb outb hbody ih v cd1 out hwf hi h
    rw [hi2] at hi
    simp at hi
  · intro cd body msg hbody ih v cd1 out hwf hi h
    simp_all [generate]
  · intro cd body cdb outb hbody ih v cd1 out hwf hi h
    simp only [DefExprB, Bool.and_eq_true] at hwf
    obtain ⟨hne, hwb⟩ := hwf
    simp only [generate, hbody, Except.ok.injEq, Prod.mk.injEq] at h
    obtain ⟨h1, h2⟩ := h
    subst h1
    exact ih v cdb outb hwb hi hbody
  · intro cd ident v cd1 out hwf hi h
    simp [DefExprB] at hwf
  · intro cd ident henv v cd1 out hwf hi h
    simp_all [generate]
  · intro cd ident mid henv v cd1 out hwf hi h
    simp only [generate, henv, Except.ok.injEq, Prod.mk.injEq] at h
    obtain ⟨h1, h2⟩ := h
    subst h1
    exact hi
  · intro cd ident henv v cd1 out hwf hi h
    simp_all [generate]
  · intro cd ident mid henv v cd1 out hwf hi h
    simp only [generate, henv, Except.ok.injEq, Prod.mk.injEq] at h
    obtain ⟨h1, h2⟩ := h
    subst h1
    exact hi
  · intro cd v cd1 out hwf hi h
    simp only [generate, Except.ok.injEq, Prod.mk.injEq] at h
    obtain ⟨h1, h2⟩ := h
    subst h1
    exact hi
  · intro cd v cd1 out hwf hi h
    simp only [generateList, Except.ok.injEq, Prod.mk.injEq] at h
    obtain ⟨h1, h2⟩ := h
    subst h1
    exact hi
  · intro cd e rest msg hgen ih v cd1 out hwf hi h
    simp_all [generateList]
  · intro cd e rest cdm outm hgen msg hrest ih1 ih2 v cd1 out hwf hi h
    simp_all [generateList]
  · intro cd e rest cdm outm hgen cdr outr hrest ih1 ih2 v cd1 out hwf hi h
    simp only [DefListB, Bool.and_eq_true] at hwf
    obtain ⟨hwe, hwr⟩ := hwf
    simp only [generateList, hgen, hrest, Except.ok.injEq, Prod.mk.injEq] at h
    obtain ⟨h1, h2⟩ := h
    subst h1
    exact ih2 v cdr outr hwr (ih1 v cdm outm hwe hi hgen) hrest


/-- Machine with all registers and all memory zero. -/
def mem0 : Mem := fun _ => 0

def m0 : Machine := ⟨0, rf0, mem0⟩

theorem generateList_preserves_i :
    ∀ (es : List Expr) (cd : Codegen) (v : List Instr) (cd1 : Codegen) (out : List Instr),
      DefListB es = true → envLookup "i" cd.Environment = some v →
      generateList cd es = .ok (cd1, out) → envLookup "i" cd1.Environment = some v := by
  intro es
  induction es with
  | nil =>
      intro cd v cd1 out hwf hi h
      simp only [generateList, Except.ok.injEq, Prod.mk.injEq] at h
      obtain ⟨h1, h2⟩ := h
      subst h1
      exact hi
  | cons e rest ih =>
      intro cd v cd1 out hwf hi h
      simp only [DefListB, Bool.and_eq_true] at hwf
      obtain ⟨hwe, hwr⟩ := hwf
      cases hg : generate cd e with
      | error msg => simp [generateList, hg] at h
      | ok p =>
          obtain ⟨cdm, outm⟩ := p
          cases hr : generateList cdm rest with
          | error msg => simp [generateList, hg, hr] at h
          | ok q =>
              obtain ⟨cdr, outr⟩ := q
              simp only [generateList, hg, hr, Except.ok.injEq, Prod.mk.injEq] at h
              obtain ⟨h1, h2⟩ := h
              subst h1
              exact ih cdm v cdr outr hwr
                (generate_preserves_i cd e v cdm outm hwe hi hg) hr

theorem generateList_append_stop :
    ∀ (es : List Expr) (cd cdm : Codegen) (outm : List Instr) (e : Expr)
      (msg : String) (rest : List Expr),
      generateList cd es = .ok (cdm, outm) → generate cdm e = .error msg →
      generateList cd (es ++ e :: rest) = .error msg := by
  intro es
  induction es with
  | nil =>
      intro cd cdm outm e msg rest h herr
      simp only [generateList, Except.ok.injEq, Prod.mk.injEq] at h
      obtain ⟨h1, h2⟩ := h
      subst h1
      simp [generateList, herr]
  | cons a as ih =>
      intro cd cdm outm e msg rest h herr
      cases hg : generate cd a with
      | error m => simp [generateList, hg] at h
      | ok p =>
          obtain ⟨cd2, out2⟩ := p
          cases hr : generateList cd2 as with
          | error m => simp [generateList, hg, hr] at h
          | ok q =>
              obtain ⟨cd3, out3⟩ := q
              simp only [generateList, hg, hr, Except.ok.injEq, Prod.mk.injEq] at h
              obtain ⟨h1, h2⟩ := h
              subst h1
              have hstep := ih cd2 cd3 out3 e msg rest hr herr
              simp [generateList, hg, hstep]

/-- Claim C10: a generator created by NewGenerator starts with exactly the
three names dup, swap and drop pre-bound, every other name unbound; the
dup snippet duplicates the top stack cell and the swap snippet exchanges
the top two cells. -/
theorem C10_newGenerator_builtins :
    envLookup "dup" NewGenerator.Environment = some dupCode
    ∧ envLookup "swap" NewGenerator.Environment = some swapCode
    ∧ envLookup "drop" NewGenerator.Environment = some dropCode
    ∧ (∀ name, name ≠ "dup" → name ≠ "swap" → name ≠ "drop" →
        envLookup name NewGenerator.Environment = none)
    ∧ (∀ rf mu a, spOk rf →
        (fun M : Machine => M.mem (rf.sp - 4) = a ∧ M.mem rf.sp = a
            ∧ M.regs.sp = rf.sp + 4 ∧ M.pc = 5)
          (run dupCode 5 (unopEntry rf mu a)))
    ∧ (∀ rf mu a b, spOk rf →
        (fun M : Machine => M.mem (rf.sp - 8) = b ∧ M.mem (rf.sp - 4) = a
            ∧ M.regs.sp = rf.sp ∧ M.pc = 8)
          (run swapCode 8 (binopEntry rf mu a b))) := by
  refine ⟨rfl, rfl, rfl, ?_, ?_, ?_⟩
  · intro name h1 h2 h3
    simp [NewGenerator, envLookup, h1, h2, h3]
  · intro rf mu a h
    exact runDup rf mu a h
  · intro rf mu a b h
    exact runSwap rf mu a b h

/-- Witness for C10 at concrete inputs. -/
theorem C10_newGenerator_builtins_witness :
    envLookup "count" NewGenerator.Environment = none
    ∧ ((fun M : Machine => M.mem (rf0.sp - 4) = 7 ∧ M.mem rf0.sp = 7
          ∧ M.regs.sp = rf0.sp + 4 ∧ M.pc = 5)
        (run dupCode 5 (unopEntry rf0 mem0 7))) := by
  constructor
  · exact C10_newGenerator_builtins.2.2.2.1 "count" (by decide) (by decide) (by decide)
  · exact C10_newGenerator_builtins.2.2.2.2.1 rf0 mem0 7 (by constructor <;> norm_num [rf0])

/-- Claim C9: a symbol reference or variable receive/assign whose name is
unbound at generation time yields an error naming the symbol, and the
pipeline halts at the first error: no expression after the failing one is
generated, whatever it is. -/
theorem C9_undefined_symbol_halts :
    (∀ cd name, envLookup name cd.Environment = none →
        generate cd (.SymbolNode name) = .error ("undefined symbol: " ++ name))
    ∧ (∀ cd name, envLookup name cd.Environment = none →
        generate cd (.ReceiveNode name) = .error ("undefined variable: " ++ name))
    ∧ (∀ cd name, envLookup name cd.Environment = none →
        generate cd (.AssignNode name) = .error ("undefined variable: " ++ name))
    ∧ (∀ cd es cdm outm name rest, generateList cd es = .ok (cdm, outm) →
        envLookup name cdm.Environment = none →
        generateFromProgram cd (es ++ .SymbolNode name :: rest)
          = .error ("undefined symbol: " ++ name)) := by
  refine ⟨?_, ?_, ?_, ?_⟩
  · intro cd name h
    simp [generate, h]
  · intro cd name h
    simp [generate, h]
  · intro cd name h
    simp [generate, h]
  · intro cd es cdm outm name rest h hnone
    have herr : generate cdm (.SymbolNode name) = .error ("undefined symbol: " ++ name) := by
      simp [generate, hnone]
    have hstop := generateList_append_stop es cd cdm outm (.SymbolNode name)
      ("undefined symbol: " ++ name) rest h herr
    simp [generateFromProgram, hstop]

/-- Witness for C9: a two-expression program whose second expression is an
unbound symbol; the third expression is a node that alone would also fail,
showing it is never reached. -/
theorem C9_undefined_symbol_halts_witness :
    generateFromProgram NewGenerator
      ([.IntegerNode 1] ++ .SymbolNode "missing" :: [.SymbolNode "alsoMissing"])
      = .error "undefined symbol: missing" := by
  have h : generateList NewGenerator [.IntegerNode 1]
      = .ok (NewGenerator, [.li .t0 1, .sw .t0 0 .sp, .addi .sp .sp 4]) := by rfl
  exact C9_undefined_symbol_halts.2.2.2 NewGenerator [.IntegerNode 1] NewGenerator
    [.li .t0 1, .sw .t0 0 .sp, .addi .sp .sp 4] "missing" [.SymbolNode "alsoMissing"] h (by rfl)

/-- Claim C8: a variable declaration binds the name to an accessor
computing heap base plus the current offset and pushing that address,
emits no code, and advances the heap offset by 4; the offset starts at
zero, never decreases across any generation step, and two declarations
separated by any amount of generation receive distinct offsets. -/
theorem C8_variable_declarations :
    NewGenerator.HeapOffset = 0
    ∧ (∀ cd x, generate cd (.VariableDefNode x)
        = .ok ({ cd with
                   Environment := envInsert x (varAccessor cd.HeapOffset) cd.Environment,
                   HeapOffset := cd.HeapOffset + 4 }, []))
    ∧ (∀ rf mu off, spOk rf →
        (fun M : Machine => M.mem rf.sp = wrap32 (rf.s0 + off)
            ∧ M.regs.sp = rf.sp + 4 ∧ M.pc = 3)
          (run (varAccessor off) 3 ⟨0, rf, mu⟩))
    ∧ (∀ cd e cd1 out, generate cd e = .ok (cd1, out) →
        cd.HeapOffset ≤ cd1.HeapOffset)
    ∧ (∀ cd x y es cd1 o1 cd2 o2 cd3 o3,
        generate cd (.VariableDefNode x) = .ok (cd1, o1) →
        generateList cd1 es = .ok (cd2, o2) →
        generate cd2 (.VariableDefNode y) = .ok (cd3, o3) →
        envLookup x cd1.Environment = some (varAccessor cd.HeapOffset)
        ∧ envLookup y cd3.Environment = some (varAccessor cd2.HeapOffset)
        ∧ cd2.HeapOffset ≠ cd.HeapOffset) := by
  refine ⟨rfl, ?_, ?_, ?_, ?_⟩
  · intro cd x
    rfl
  · intro rf mu off h
    obtain ⟨hlo, hhi⟩ := h
    have hp : wrap32 (rf.sp + 4) = rf.sp + 4 := by unfold wrap32; omega
    simp [run, execT, step, labelIdx, RegFile.get, RegFile.set, memSet, varAccessor, hp]
  · intro cd e cd1 out h
    exact generate_heap_mono cd e cd1 out h
  · intro cd x y es cd1 o1 cd2 o2 cd3 o3 h1 h2 h3
    simp only [generate, Except.ok.injEq, Prod.mk.injEq] at h1 h3
    obtain ⟨h1a, h1b⟩ := h1
    obtain ⟨h3a, h3b⟩ := h3
    subst h1a
    subst h3a
    have hmono := generateList_heap_mono _ es cd2 o2 h2
    refine ⟨envLookup_insert_same x _ _, envLookup_insert_same y _ _, ?_⟩
    show cd2.HeapOffset ≠ cd.HeapOffset
    have : cd.HeapOffset + 4 ≤ cd2.HeapOffset := hmono
    omega

/-- Witness for C8 at concrete inputs: two declarations around an integer
literal get the distinct offsets 0 and 4. -/
theorem C8_variable_declarations_witness :
    spOk rf0
    ∧ ((fun M : Machine => M.mem rf0.sp = wrap32 (rf0.s0 + 0)
          ∧ M.regs.sp = rf0.sp + 4 ∧ M.pc = 3)
        (run (varAccessor 0) 3 ⟨0, rf0, mem0⟩))
    ∧ (envLookup "a" (envInsert "a" (varAccessor NewGenerator.HeapOffset) NewGenerator.Environment)
          = some (varAccessor NewGenerator.HeapOffset)) := by
  have hsp : spOk rf0 := by constructor <;> norm_num [rf0]
  refine ⟨hsp, C8_variable_declarations.2.2.1 rf0 mem0 0 hsp, ?_⟩
  have h := C8_variable_declarations.2.2.2.2 NewGenerator "a" "b" []
    { NewGenerator with
        Environment := envInsert "a" (varAccessor NewGenerator.HeapOffset) NewGenerator.Environment,
        HeapOffset := NewGenerator.HeapOffset + 4 } []
    { NewGenerator with
        Environment := envInsert "a" (varAccessor NewGenerator.HeapOffset) NewGenerator.Environment,
        HeapOffset := NewGenerator.HeapOffset + 4 } []
    { NewGenerator with
        Environment := envInsert "b" (varAccessor (NewGenerator.HeapOffset + 4))
          (envInsert "a" (varAccessor NewGenerator.HeapOffset) NewGenerator.Environment),
        HeapOffset := NewGenerator.HeapOffset + 4 + 4 } []
    rfl rfl rfl
  exact h.1


/-- Claim C3: every binary operator pops the right operand first, then the
left, computes the operation with the left operand as the left argument,
and pushes exactly one result. With the left operand at sp - 8 and the
right at sp - 4 on entry (left pushed first), the emitted block falls
through with the stack pointer net one cell lower and the single result
cell holding the operation of left and right, for each of the twelve
operators. -/
theorem C3_binop_operand_order :
    ∀ (cd : Codegen) (rf : RegFile) (mu : Mem) (l r : Int), spOk rf →
      (∃ cd1 code, generate cd (.BinOpNode "+") = .ok (cd1, code)
        ∧ ((fun M : Machine => M.mem (rf.sp - 8) = wrap32 (l + r)
              ∧ M.regs.sp = rf.sp - 4 ∧ M.pc = code.length)
            (run code code.length (binopEntry rf mu l r))))
      ∧ (∃ cd1 code, generate cd (.BinOpNode "-") = .ok (cd1, code)
        ∧ ((fun M : Machine => M.mem (rf.sp - 8) = wrap32 (l - r)
              ∧ M.regs.sp = rf.sp - 4 ∧ M.pc = code.length)
            (run code code.length (binopEntry rf mu l r))))
      ∧ (∃ cd1 code, generate cd (.BinOpNode "*") = .ok (cd1, code)
        ∧ ((fun M : Machine => M.mem (rf.sp - 8) = wrap32 (l * r)
              ∧ M.regs.sp = rf.sp - 4 ∧ M.pc = code.length)
            (run code code.length (binopEntry rf mu l r))))
      ∧ (∃ cd1 code, generate cd (.BinOpNode "/") = .ok (cd1, code)
        ∧ ((fun M : Machine => M.mem (rf.sp - 8)
                = (if r = 0 then -1 else wrap32 (Int.tdiv l r))
              ∧ M.regs.sp = rf.sp - 4 ∧ M.pc = code.length)
            (run code code.length (binopEntry rf mu l r))))
      ∧ (∃ cd1 code, generate cd (.BinOpNode "<") = .ok (cd1, code)
        ∧ ((fun M : Machine => M.mem (rf.sp - 8) = (if l < r then -1 else 0)
              ∧ M.regs.sp = rf.sp - 4 ∧ M.pc = code.length)
            (run code code.length (binopEntry rf mu l r))))
      ∧ (∃ cd1 code, generate cd (.BinOpNode ">") = .ok (cd1, code)
        ∧ ((fun M : Machine => M.mem (rf.sp - 8) = (if r < l then -1 else 0)
              ∧ M.regs.sp = rf.sp - 4 ∧ M.pc = code.length)
            (run code code.length (binopEntry rf mu l r))))
      ∧ (∃ cd1 code, generate cd (.BinOpNode "<=") = .ok (cd1, code)
        ∧ ((fun M : Machine => M.mem (rf.sp - 8) = (if l ≤ r then -1 else 0)
              ∧ M.regs.sp = rf.sp - 4 ∧ M.pc = code.length)
            (run code code.length (binopEntry rf mu l r))))
      ∧ (∃ cd1 code, generate cd (.BinOpNode ">=") = .ok (cd1, code)
        ∧ ((fun M : Machine => M.mem (rf.sp - 8) = (if r ≤ l then -1 else 0)
              ∧ M.regs.sp = rf.sp - 4 ∧ M.pc = code.length)
            (run code code.length (binopEntry rf mu l r))))
      ∧ (∃ cd1 code, generate cd (.BinOpNode "=") = .ok (cd1, code)
        ∧ ((fun M : Machine => M.mem (rf.sp - 8) = (if l = r then -1 else 0)
              ∧ M.regs.sp = rf.sp - 4 ∧ M.pc = code.length)
            (run code code.length (binopEntry rf mu l r))))
      ∧ (∃ cd1 code, generate cd (.BinOpNode "<>") = .ok (cd1, code)
        ∧ ((fun M : Machine => M.mem (rf.sp - 8) = (if l = r then 0 else -1)
              ∧ M.regs.sp = rf.sp - 4 ∧ M.pc = code.length)
            (run code code.length (binopEntry rf mu l r))))
      ∧ (∃ cd1 code, generate cd (.BinOpNode "and") = .ok (cd1, code)
        ∧ ((fun M : Machine => M.mem (rf.sp - 8) = (if l ≠ 0 ∧ r ≠ 0 then -1 else 0)
              ∧ M.regs.sp = rf.sp - 4 ∧ M.pc = code.length)
            (run code code.length (binopEntry rf mu l r))))
      ∧ (∃ cd1 code, generate cd (.BinOpNode "or") = .ok (cd1, code)
        ∧ ((fun M : Machine => M.mem (rf.sp - 8) = (if l ≠ 0 ∨ r ≠ 0 then -1 else 0)
              ∧ M.regs.sp = rf.sp - 4 ∧ M.pc = code.length)
            (run code code.length (binopEntry rf mu l r)))) := by
  intro cd rf mu l r hsp
  refine ⟨⟨_, _, rfl, ?_⟩, ⟨_, _, rfl, ?_⟩, ⟨_, _, rfl, ?_⟩, ⟨_, _, rfl, ?_⟩,
    ⟨_, _, rfl, ?_⟩, ⟨_, _, rfl, ?_⟩, ⟨_, _, rfl, ?_⟩, ⟨_, _, rfl, ?_⟩,
    ⟨_, _, rfl, ?_⟩, ⟨_, _, rfl, ?_⟩, ⟨_, _, rfl, ?_⟩, ⟨_, _, rfl, ?_⟩⟩
  · simpa using runBinopAdd rf mu l r hsp
  · simpa using runBinopSub rf mu l r hsp
  · simpa using runBinopMul rf mu l r hsp
  · simpa using runBinopDiv rf mu l r hsp
  · simpa using runBinopLt rf mu l r hsp
  · simpa using runBinopGt rf mu l r hsp
  · simpa using runBinopLe cd.nextLabel rf mu l r hsp
  · simpa using runBinopGe cd.nextLabel rf mu l r hsp
  · simpa using runBinopEq cd.nextLabel rf mu l r hsp
  · simpa using runBinopNe cd.nextLabel rf mu l r hsp
  · simpa using runBinopAnd cd.nextLabel rf mu l r hsp
  · simpa using runBinopOr cd.nextLabel rf mu l r hsp

/-- Witness for C3 at concrete inputs: 9 minus 2 gives 7 in the result
cell with the stack pointer net one cell lower. -/
theorem C3_binop_operand_order_witness :
    spOk rf0
    ∧ (∃ cd1 code, generate NewGenerator (.BinOpNode "-") = .ok (cd1, code)
        ∧ ((fun M : Machine => M.mem (rf0.sp - 8) = wrap32 (9 - 2)
              ∧ M.regs.sp = rf0.sp - 4 ∧ M.pc = code.length)
            (run code code.length (binopEntry rf0 mem0 9 2)))) := by
  have hsp : spOk rf0 := by constructor <;> norm_num [rf0]
  exact ⟨hsp, (C3_binop_operand_order NewGenerator rf0 mem0 9 2 hsp).2.1⟩

/-- Claim C2: every comparison operator, the logical and/or (non-zero
tests) and the unary invert produce only the two canonical boolean
encodings: all-bits-zero for false and all-bits-one (the arithmetic
negation of one, here the integer minus one) for true — never any other
value, whatever the operands. -/
theorem C2_canonical_booleans :
    ∀ (cd : Codegen) (rf : RegFile) (mu : Mem) (l r v : Int), spOk rf →
      (∀ op, (op = "<" ∨ op = ">" ∨ op = "<=" ∨ op = ">=" ∨ op = "="
          ∨ op = "<>" ∨ op = "and" ∨ op = "or") →
        ∃ cd1 code, generate cd (.BinOpNode op) = .ok (cd1, code)
          ∧ ((run code code.length (binopEntry rf mu l r)).mem (rf.sp - 8) = 0
             ∨ (run code code.length (binopEntry rf mu l r)).mem (rf.sp - 8) = -1))
      ∧ (∃ cd1 code, generate cd (.UnOpNode "invert") = .ok (cd1, code)
          ∧ ((run code code.length (unopEntry rf mu v)).mem (rf.sp - 4) = 0
             ∨ (run code code.length (unopEntry rf mu v)).mem (rf.sp - 4) = -1)) := by
  intro cd rf mu l r v hsp
  constructor
  · intro op hop
    have hmain := C3_binop_operand_order cd rf mu l r hsp
    rcases hop with rfl | rfl | rfl | rfl | rfl | rfl | rfl | rfl
    · obtain ⟨cd1, code, hg, hrun⟩ := hmain.2.2.2.2.1
      refine ⟨cd1, code, hg, ?_⟩
      by_cases hc : l < r
      · right; simpa [hc] using hrun.1
      · left; simpa [hc] using hrun.1
    · obtain ⟨cd1, code, hg, hrun⟩ := hmain.2.2.2.2.2.1
      refine ⟨cd1, code, hg, ?_⟩
      by_cases hc : r < l
      · right; simpa [hc] using hrun.1
      · left; simpa [hc] using hrun.1
    · obtain ⟨cd1, code, hg, hrun⟩ := hmain.2.2.2.2.2.2.1
      refine ⟨cd1, code, hg, ?_⟩
      by_cases hc : l ≤ r
      · right; simpa [hc] using hrun.1
      · left; simpa [hc] using hrun.1
    · obtain ⟨cd1, code, hg, hrun⟩ := hmain.2.2.2.2.2.2.2.1
      refine ⟨cd1, code, hg, ?_⟩
      by_cases hc : r ≤ l
      · right; simpa [hc] using hrun.1
      · left; simpa [hc] using hrun.1
    · obtain ⟨cd1, code, hg, hrun⟩ := hmain.2.2.2.2.2.2.2.2.1
      refine ⟨cd1, code, hg, ?_⟩
      by_cases hc : l = r
      · right; simpa [hc] using hrun.1
      · left; simpa [hc] using hrun.1
    · obtain ⟨cd1, code, hg, hrun⟩ := hmain.2.2.2.2.2.2.2.2.2.1
      refine ⟨cd1, code, hg, ?_⟩
      by_cases hc : l = r
      · left; simpa [hc] using hrun.1
      · right; simpa [hc] using hrun.1
    · obtain ⟨cd1, code, hg, hrun⟩ := hmain.2.2.2.2.2.2.2.2.2.2.1
      refine ⟨cd1, code, hg, ?_⟩
      by_cases hc : l ≠ 0 ∧ r ≠ 0
      · right; simpa [hc] using hrun.1
      · left; simpa [hc] using hrun.1
    · obtain ⟨cd1, code, hg, hrun⟩ := hmain.2.2.2.2.2.2.2.2.2.2.2
      refine ⟨cd1, code, hg, ?_⟩
      by_cases hc : l ≠ 0 ∨ r ≠ 0
      · right; simpa [hc] using hrun.1
      · left; simpa [hc] using hrun.1
  · refine ⟨_, _, rfl, ?_⟩
    have hrun := runUnopInvert cd.nextLabel rf mu v hsp
    by_cases hc : v = 0
    · right; simpa [hc] using hrun.1
    · left; simpa [hc] using hrun.1

/-- Witness for C2 at concrete inputs: 5 < 3 produces the canonical false
and invert of 0 produces a canonical boolean. -/
theorem C2_canonical_booleans_witness :
    spOk rf0
    ∧ (∃ cd1 code, generate NewGenerator (.BinOpNode "<") = .ok (cd1, code)
        ∧ ((run code code.length (binopEntry rf0 mem0 5 3)).mem (rf0.sp - 8) = 0
           ∨ (run code code.length (binopEntry rf0 mem0 5 3)).mem (rf0.sp - 8) = -1)) := by
  have hsp : spOk rf0 := by constructor <;> norm_num [rf0]
  exact ⟨hsp,
    (C2_canonical_booleans NewGenerator rf0 mem0 5 3 0 hsp).1 "<" (by tauto)⟩


/-- Claim C4: a counted loop pops the top of stack into the index register
and then the next value into the limit register, emits a top label, the
body, an increment of the index register and a branch back while index and
limit differ. Shown structurally for both register pairs, and semantically
on the program 3 0 do i drop loop: the generated program halts with the
loop label visited exactly three times (indices 0, 1, 2 — the limit 3 is
excluded) and the index register equal to the limit 3. -/
theorem C4_counted_loop :
    (∀ cd body cdb outb, envLookup "i" cd.Environment = none →
        generateList { cd with Environment := envInsert "i" pushIdxI cd.Environment }
            body = .ok (cdb, outb) →
        generate cd (.DoLoopNode body)
          = .ok ({ cdb with
                     Environment := envErase "i" cdb.Environment,
                     nextLabel := cdb.nextLabel + 1 },
              [.addi .sp .sp (-4), .lw .t6 0 .sp,
               .addi .sp .sp (-4), .lw .t5 0 .sp,
               .label (.gen cdb.nextLabel)] ++ outb
              ++ [.addi .t6 .t6 1, .bne .t5 .t6 (.gen cdb.nextLabel)]))
    ∧ (∀ cd body v cdb outb, envLookup "i" cd.Environment = some v →
        generateList { cd with Environment := envInsert "j" pushIdxJ cd.Environment }
            body = .ok (cdb, outb) →
        generate cd (.DoLoopNode body)
          = .ok ({ cdb with
                     Environment := envErase "j" cdb.Environment,
                     nextLabel := cdb.nextLabel + 1 },
              [.addi .sp .sp (-4), .lw .t4 0 .sp,
               .addi .sp .sp (-4), .lw .t3 0 .sp,
               .label (.gen cdb.nextLabel)] ++ outb
              ++ [.addi .t4 .t4 1, .bne .t3 .t4 (.gen cdb.nextLabel)]))
    ∧ (∃ cdX, generateFromProgram NewGenerator
          [.IntegerNode 3, .IntegerNode 0, .DoLoopNode [.SymbolNode "i", .SymbolNode "drop"]]
        = .ok (cdX,
          [.j .initL, .label .initL, .li .sp 0x10010000, .li .s0 0x10040000,
           .j .mainL, .label .mainL,
           .li .t0 3, .sw .t0 0 .sp, .addi .sp .sp 4,
           .li .t0 0, .sw .t0 0 .sp, .addi .sp .sp 4,
           .addi .sp .sp (-4), .lw .t6 0 .sp, .addi .sp .sp (-4), .lw .t5 0 .sp,
           .label (.gen 0),
           .sw .t6 0 .sp, .addi .sp .sp 4, .addi .sp .sp (-4),
           .addi .t6 .t6 1, .bne .t5 .t6 (.gen 0)]))
    ∧ ((fun M : Machine => M.pc = 22 ∧ M.regs.t6 = 3 ∧ M.regs.t5 = 3)
        (run
          [.j .initL, .label .initL, .li .sp 0x10010000, .li .s0 0x10040000,
           .j .mainL, .label .mainL,
           .li .t0 3, .sw .t0 0 .sp, .addi .sp .sp 4,
           .li .t0 0, .sw .t0 0 .sp, .addi .sp .sp 4,
           .addi .sp .sp (-4), .lw .t6 0 .sp, .addi .sp .sp (-4), .lw .t5 0 .sp,
           .label (.gen 0),
           .sw .t6 0 .sp, .addi .sp .sp 4, .addi .sp .sp (-4),
           .addi .t6 .t6 1, .bne .t5 .t6 (.gen 0)] 80 m0))
    ∧ (trace
          [.j .initL, .label .initL, .li .sp 0x10010000, .li .s0 0x10040000,
           .j .mainL, .label .mainL,
           .li .t0 3, .sw .t0 0 .sp, .addi .sp .sp 4,
           .li .t0 0, .sw .t0 0 .sp, .addi .sp .sp 4,
           .addi .sp .sp (-4), .lw .t6 0 .sp, .addi .sp .sp (-4), .lw .t5 0 .sp,
           .label (.gen 0),
           .sw .t6 0 .sp, .addi .sp .sp 4, .addi .sp .sp (-4),
           .addi .t6 .t6 1, .bne .t5 .t6 (.gen 0)] 80 m0).count 16 = 3 := by
  refine ⟨?_, ?_, ?_, ?_, ?_⟩
  · intro cd body cdb outb hi hb
    simp [generate, hi, hb]
  · intro cd body v cdb outb hi hb
    simp [generate, hi, hb]
  · exact ⟨_, rfl⟩
  · refine ⟨?_, ?_, ?_⟩ <;> decide
  · decide

/-- Witness for C4: the structural equation instantiated on the concrete
one-node body holding the integer one. -/
theorem C4_counted_loop_witness :
    envLookup "i" NewGenerator.Environment = none
    ∧ generate NewGenerator (.DoLoopNode [.IntegerNode 1])
      = .ok ({ Environment := envErase "i" (envInsert "i" pushIdxI NewGenerator.Environment),
               HeapOffset := 0, nextLabel := 1 },
          [.addi .sp .sp (-4), .lw .t6 0 .sp,
           .addi .sp .sp (-4), .lw .t5 0 .sp,
           .label (.gen 0)]
          ++ [.li .t0 1, .sw .t0 0 .sp, .addi .sp .sp 4]
          ++ [.addi .t6 .t6 1, .bne .t5 .t6 (.gen 0)]) :=
  ⟨rfl, C4_counted_loop.1 NewGenerator [.IntegerNode 1]
    { Environment := envInsert "i" pushIdxI NewGenerator.Environment,
      HeapOffset := 0, nextLabel := 0 }
    [.li .t0 1, .sw .t0 0 .sp, .addi .sp .sp 4] rfl rfl⟩


/-- Claim C7: an indefinite loop emits a top label, the body, then pops
the condition and branches back while it is zero — a post-test loop.
Shown structurally, and semantically on begin 1 until: the generated
program halts, and the first body instruction (index 7) executes exactly
once. -/
theorem C7_begin_until :
    (∀ cd body cdb outb, generateList cd body = .ok (cdb, outb) →
        generate cd (.BeginUntilNode body)
          = .ok ({ cdb with nextLabel := cdb.nextLabel + 1 },
              [.label (.gen cdb.nextLabel)] ++ outb
              ++ [.addi .sp .sp (-4), .lw .t0 0 .sp, .beqz .t0 (.gen cdb.nextLabel)]))
    ∧ (∃ cdX, generateFromProgram NewGenerator [.BeginUntilNode [.IntegerNode 1]]
        = .ok (cdX,
          [.j .initL, .label .initL, .li .sp 0x10010000, .li .s0 0x10040000,
           .j .mainL, .label .mainL,
           .label (.gen 0), .li .t0 1, .sw .t0 0 .sp, .addi .sp .sp 4,
           .addi .sp .sp (-4), .lw .t0 0 .sp, .beqz .t0 (.gen 0)]))
    ∧ ((fun M : Machine => M.pc = 13)
        (run [.j .initL, .label .initL, .li .sp 0x10010000, .li .s0 0x10040000,
              .j .mainL, .label .mainL,
              .label (.gen 0), .li .t0 1, .sw .t0 0 .sp, .addi .sp .sp 4,
              .addi .sp .sp (-4), .lw .t0 0 .sp, .beqz .t0 (.gen 0)] 20 m0))
    ∧ (trace [.j .initL, .label .initL, .li .sp 0x10010000, .li .s0 0x10040000,
              .j .mainL, .label .mainL,
              .label (.gen 0), .li .t0 1, .sw .t0 0 .sp, .addi .sp .sp 4,
              .addi .sp .sp (-4), .lw .t0 0 .sp, .beqz .t0 (.gen 0)] 20 m0).count 7 = 1 := by
  refine ⟨?_, ?_, ?_, ?_⟩
  · intro cd body cdb outb hb
    simp [generate, hb]
  · exact ⟨_, rfl⟩
  · decide
  · decide

/-- Witness for C7: the structural equation instantiated on the concrete
one-node body holding the integer one. -/
theorem C7_begin_until_witness :
    generateList NewGenerator [.IntegerNode 1]
      = .ok (NewGenerator, [.li .t0 1, .sw .t0 0 .sp, .addi .sp .sp 4])
    ∧ generate NewGenerator (.BeginUntilNode [.IntegerNode 1])
      = .ok ({ NewGenerator with nextLabel := 1 },
          [.label (.gen 0)] ++ [.li .t0 1, .sw .t0 0 .sp, .addi .sp .sp 4]
          ++ [.addi .sp .sp (-4), .lw .t0 0 .sp, .beqz .t0 (.gen 0)]) :=
  ⟨rfl, C7_begin_until.1 NewGenerator [.IntegerNode 1] NewGenerator
    [.li .t0 1, .sw .t0 0 .sp, .addi .sp .sp 4] rfl⟩

/-- Memory for the cmove demonstration: the operand stack (stack pointer
100) holds, top to bottom, the count 0 at address 96, the destination
address 300 at 92, and the source address 200 at 88; the source word at
address 200 is 7 and the destination word at 300 is 0. -/
def cmoveDemoMem : Mem := fun a =>
  if a = 88 then 200 else if a = 92 then 300 else if a = 96 then 0
  else if a = 200 then 7 else 0

def cmoveDemoMachine : Machine :=
  ⟨0, ⟨100, 0, 0, 0, 0, 0, 0, 0, 0⟩, cmoveDemoMem⟩

/-- Claim C1, behaviour at the failing input count = 0: the emitted block
is a post-test loop, so with a zero count on top of the stack it still
copies the word at the source to the destination (after nine steps the
destination word at 300 has become 7), then decrements the count register
to minus one and branches back to the loop label (index 6) for a further
iteration, contradicting the claim that a zero count performs no copy and
that copying stops exactly when the count reaches zero. -/
theorem C1_cmove_zero_count_still_copies :
    generate NewGenerator .CmoveNode
      = .ok ({ NewGenerator with nextLabel := 1 },
          [.addi .sp .sp (-4), .lw .t0 0 .sp,
           .addi .sp .sp (-4), .lw .t1 0 .sp,
           .addi .sp .sp (-4), .lw .t2 0 .sp,
           .label (.gen 0),
           .lw .t3 0 .t2, .sw .t3 0 .t1,
           .addi .t0 .t0 (-1),
           .addi .t1 .t1 4, .addi .t2 .t2 4,
           .bnez .t0 (.gen 0)])
    ∧ cmoveDemoMachine.mem (cmoveDemoMachine.regs.sp - 4) = 0
    ∧ cmoveDemoMachine.mem 300 = 0
    ∧ cmoveDemoMachine.mem 200 = 7
    ∧ (run [.addi .sp .sp (-4), .lw .t0 0 .sp,
            .addi .sp .sp (-4), .lw .t1 0 .sp,
            .addi .sp .sp (-4), .lw .t2 0 .sp,
            .label (.gen 0),
            .lw .t3 0 .t2, .sw .t3 0 .t1,
            .addi .t0 .t0 (-1),
            .addi .t1 .t1 4, .addi .t2 .t2 4,
            .bnez .t0 (.gen 0)] 9 cmoveDemoMachine).mem 300 = 7
    ∧ (run [.addi .sp .sp (-4), .lw .t0 0 .sp,
            .addi .sp .sp (-4), .lw .t1 0 .sp,
            .addi .sp .sp (-4), .lw .t2 0 .sp,
            .label (.gen 0),
            .lw .t3 0 .t2, .sw .t3 0 .t1,
            .addi .t0 .t0 (-1),
            .addi .t1 .t1 4, .addi .t2 .t2 4,
            .bnez .t0 (.gen 0)] 13 cmoveDemoMachine).pc = 6
    ∧ (run [.addi .sp .sp (-4), .lw .t0 0 .sp,
            .addi .sp .sp (-4), .lw .t1 0 .sp,
            .addi .sp .sp (-4), .lw .t2 0 .sp,
            .label (.gen 0),
            .lw .t3 0 .t2, .sw .t3 0 .t1,
            .addi .t0 .t0 (-1),
            .addi .t1 .t1 4, .addi .t2 .t2 4,
            .bnez .t0 (.gen 0)] 13 cmoveDemoMachine).regs.t0 = -1 := by
  refine ⟨rfl, ?_, ?_, ?_, ?_, ?_, ?_⟩ <;> decide


/-- Amended claim C5: a counted loop inserts its implicit index binding
(i at the outermost level, j under an existing i) before generating its
body and removes it afterwards; after a loop generated with i unbound, i
is unbound again; after a loop generated with i bound (a nested loop with
a definition-body-wellformed body), the outer i binding still resolves to
its old snippet and j is unbound. (At three levels of nesting the removal
deletes the middle loop's j binding instead of restoring it — see the
counterexample.) -/
theorem C5_loop_index_binding :
    (∀ cd body cd1 out, envLookup "i" cd.Environment = none →
        generate cd (.DoLoopNode body) = .ok (cd1, out) →
        envLookup "i" cd1.Environment = none
        ∧ ∃ cdb outb,
            generateList { cd with Environment := envInsert "i" pushIdxI cd.Environment }
                body = .ok (cdb, outb)
            ∧ cd1.Environment = envErase "i" cdb.Environment
            ∧ envLookup "i" (envInsert "i" pushIdxI cd.Environment) = some pushIdxI)
    ∧ (∀ cd body v cd1 out, DefListB body = true →
        envLookup "i" cd.Environment = some v →
        generate cd (.DoLoopNode body) = .ok (cd1, out) →
        envLookup "i" cd1.Environment = some v
        ∧ envLookup "j" cd1.Environment = none
        ∧ ∃ cdb outb,
            generateList { cd with Environment := envInsert "j" pushIdxJ cd.Environment }
                body = .ok (cdb, outb)
            ∧ cd1.Environment = envErase "j" cdb.Environment
            ∧ envLookup "j" (envInsert "j" pushIdxJ cd.Environment) = some pushIdxJ) := by
  constructor
  · intro cd body cd1 out hi h
    cases hb : generateList { cd with Environment := envInsert "i" pushIdxI cd.Environment } body with
    | error msg => simp [generate, hi, hb] at h
    | ok p =>
        obtain ⟨cdb, outb⟩ := p
        simp only [generate, hi, hb, Except.ok.injEq, Prod.mk.injEq] at h
        obtain ⟨h1, h2⟩ := h
        subst h1
        refine ⟨envLookup_erase_same "i" cdb.Environment, cdb, outb, rfl, rfl,
          envLookup_insert_same "i" pushIdxI cd.Environment⟩
  · intro cd body v cd1 out hwf hi h
    cases hb : generateList { cd with Environment := envInsert "j" pushIdxJ cd.Environment } body with
    | error msg => simp [generate, hi, hb] at h
    | ok p =>
        obtain ⟨cdb, outb⟩ := p
        simp only [generate, hi, hb, Except.ok.injEq, Prod.mk.injEq] at h
        obtain ⟨h1, h2⟩ := h
        subst h1
        have hij : ("i" : String) ≠ "j" := by decide
        have hinner : envLookup "i" (envInsert "j" pushIdxJ cd.Environment) = some v := by
          rw [envLookup_insert_ne _ _ _ _ hij]
          exact hi
        have hcdb : envLookup "i" cdb.Environment = some v :=
          generateList_preserves_i body _ v cdb outb hwf hinner hb
    
        refine ⟨?_, ?_, cdb, outb, rfl, rfl,
          envLookup_insert_same "j" pushIdxJ cd.Environment⟩
        · show envLookup "i" (envErase "j" cdb.Environment) = some v
          rw [envLookup_erase_ne _ _ _ hij]
          exact hcdb
        · exact envLookup_erase_same "j" cdb.Environment

/-- Witness for C5: the amended statement instantiated on a nested loop
whose body is the integer one, generated with i already bound; the outer
binding of i survives the inner loop and j is removed. -/
theorem C5_loop_index_binding_witness :
    DefListB [.IntegerNode 1] = true
    ∧ envLookup "i" (envInsert "i" pushIdxI NewGenerator.Environment) = some pushIdxI
    ∧ envLookup "i"
        (envErase "j" (envInsert "j" pushIdxJ (envInsert "i" pushIdxI NewGenerator.Environment)))
        = some pushIdxI
    ∧ envLookup "j"
        (envErase "j" (envInsert "j" pushIdxJ (envInsert "i" pushIdxI NewGenerator.Environment)))
        = none := by
  refine ⟨rfl, envLookup_insert_same "i" pushIdxI NewGenerator.Environment, ?_⟩
  have hres := C5_loop_index_binding.2
    { Environment := envInsert "i" pushIdxI NewGenerator.Environment,
      HeapOffset := 0, nextLabel := 0 }
    [.IntegerNode 1] pushIdxI
    { Environment :=
        envErase "j" (envInsert "j" pushIdxJ (envInsert "i" pushIdxI NewGenerator.Environment)),
      HeapOffset := 0, nextLabel := 1 }
    [.addi .sp .sp (-4), .lw .t4 0 .sp, .addi .sp .sp (-4), .lw .t3 0 .sp,
     .label (.gen 0), .li .t0 1, .sw .t0 0 .sp, .addi .sp .sp 4,
     .addi .t4 .t4 1, .bne .t3 .t4 (.gen 0)]
    rfl (envLookup_insert_same "i" pushIdxI NewGenerator.Environment) (by rfl)
  exact ⟨hres.1, hres.2.1⟩

/-- Counterexample to claim C5 as stated: with three nested counted
loops, the innermost loop deletes the middle loop's j binding when it
finishes instead of restoring it, so the middle loop's body can no longer
reference its own index after the inner loop: generation fails with an
undefined-symbol error, although the claim says references to an outer
loop's index name still resolve after any loop finishes generating. -/
theorem C5_loop_index_binding_counterexample :
    generate NewGenerator
      (.DoLoopNode [.DoLoopNode [.DoLoopNode [.IntegerNode 1], .SymbolNode "j"]])
      = .error "undefined symbol: j" := by
  rfl


theorem defExprB_eq_amended : ∀ e, DefExprB e = AmendedDefExprB e := by
  apply DefExprB.induct (fun e => DefExprB e = AmendedDefExprB e)
    (fun es => DefListB es = AmendedDefListB es)
  all_goals intros
  all_goals simp_all [DefExprB, DefListB, AmendedDefExprB, AmendedDefListB]

theorem defListB_eq_amended : ∀ es, DefListB es = AmendedDefListB es := by
  intro es
  induction es with
  | nil => rfl
  | cons e rest ih => simp [DefListB, AmendedDefListB, defExprB_eq_amended e, ih]

theorem topExprB_eq_amended : ∀ e, TopExprB e = AmendedTopExprB e := by
  intro e
  cases e <;> simp [TopExprB, AmendedTopExprB, defListB_eq_amended]

/-- Amended claim C6: the parser has exactly two grammar modes, but their
memberships differ from the claim: top-level expressions accept integer
literals, symbol references, binary/unary operators, word definitions,
variable declarations, address receive/assign, and block copy (not
conditionals or loops); definition-body expressions accept integer
literals, symbol references, binary/unary operators, conditionals,
counted loops, indefinite loops, address receive/assign, and block copy —
and never nested word definitions nor variable declarations. -/
theorem C6_grammar_modes :
    (∀ e, TopExprB e = AmendedTopExprB e)
    ∧ (∀ e, DefExprB e = AmendedDefExprB e)
    ∧ (∀ s b, DefExprB (.SymbolDefNode s b) = false)
    ∧ (∀ x, DefExprB (.VariableDefNode x) = false)
    ∧ (∀ t e2, TopExprB (.IfThenElseNode t e2) = false)
    ∧ (∀ b, TopExprB (.DoLoopNode b) = false)
    ∧ (∀ b, TopExprB (.BeginUntilNode b) = false) := by
  refine ⟨topExprB_eq_amended, defExprB_eq_amended, ?_, ?_, ?_, ?_, ?_⟩
  · intro s b; rfl
  · intro x; rfl
  · intro t e2; rfl
  · intro b; rfl
  · intro b; rfl

/-- Counterexample to claim C6 as stated: the top-level grammar also
accepts block copy, variable declarations and address receive/assign
(the claim says it accepts only the four basic kinds plus word
definitions), and the definition-body grammar rejects variable
declarations (the claim says it accepts them). -/
theorem C6_grammar_modes_counterexample :
    TopExprB .CmoveNode = true ∧ SpecTopExprB .CmoveNode = false
    ∧ TopExprB (.VariableDefNode "x") = true
    ∧ SpecTopExprB (.VariableDefNode "x") = false
    ∧ TopExprB (.AssignNode "x") = true ∧ SpecTopExprB (.AssignNode "x") = false
    ∧ TopExprB (.ReceiveNode "x") = true ∧ SpecTopExprB (.ReceiveNode "x") = false
    ∧ DefExprB (.VariableDefNode "x") = false
    ∧ SpecDefExprB (.VariableDefNode "x") = true :=
  ⟨rfl, rfl, rfl, rfl, rfl, rfl, rfl, rfl, rfl, rfl⟩

end Forthc
